import Mathlib

/-!
Shallow embedding of `source/dopest.py` (LEOGPS v1.3), the Doppler
(carrier-phase-rate) estimation engine `dopest`.

Modelling conventions, in the order the source uses them:

* Epochs (the `datetime` keys of the nested RINEX dictionary) are `Int`
  values, a count of time units since an arbitrary origin; the fixed RINEX
  step `rnxstep : timedelta` becomes `stepv : Int` in the same units, so the
  source expression `t - (k*rnxstep)` becomes `t - k * stepv`.  The source's
  `float(rnxstep.seconds)` (the `.seconds` attribute, equal to the full step
  for sub-day steps) is passed separately as `secs : Rat`.
* Python floats are modelled as exact rationals `Rat`.
* A Python dict is an association list; lookup and in-place update both act
  on the first matching key, and a fresh key is appended at the end, exactly
  as dict insertion order behaves.
* An observation record `rnxdata[t][p]` is one Python dict holding the keys
  `'flag'`, `'L1'/'L2'`, `'D1'/'D2'`, and other observables (`'C1'`, ...).
  The key families are disjoint, so the record is split into fields:
  `flag : String`, `L : List (Nat × Rat)` (band number to carrier phase,
  absent key = missing observable), `D : List (Nat × DVal)`, and the
  untouched remainder `other : List (String × Rat)`.
* A `D` entry is either the Python string `'NaN'` (written at line 104 of
  the source) or a float (line 149): the type `DVal` below.
* `np.polyfit(N, L, 19)` is a floating-point least-squares solve inside
  numpy, outside this repository; it is a parameter
  `polyfit : List Rat → List Rat → Nat → List Rat` of the whole development
  (arguments in numpy's order: abscissae, ordinates, degree; result is the
  coefficient list, highest degree first).  Every theorem below holds for
  every such function.  `np.polyval` is exact Horner evaluation, defined
  concretely below.  `np.linspace(0, n-1, n)` is exactly `[0, 1, ..., n-1]`
  (for `n = 1` numpy returns `[0.0]`), so it is modelled as
  `(List.range n).map Nat.cast`.
* `dopest` has two abnormal exits: `return False` at line 125 (missing
  carrier phase) and an uncaught `KeyError` raised by the write-back lookup
  `rnxout[t-(k*rnxstep)][p]` at line 149 when the computed epoch or the
  satellite is absent.  Both are modelled by `Except Err`.
* `rnxout = copy.deepcopy(rnxdata)` at line 77: the embedding is pure, so
  the output store starts as the input value and is threaded functionally;
  the caller's input is untouched by construction.
-/

namespace LeoGPS

/-- A value stored under a `'D1'`/`'D2'` key: either the Python string
`'NaN'` (the invalid-value sentinel of line 104) or a float (line 149). -/
inductive DVal where
  | str : String → DVal
  | num : Rat → DVal
deriving DecidableEq

/-- One observation record `rnxdata[t][p]`: the `'flag'` string written by
`phasep.py`, the carrier-phase entries `'L<f>'`, the Doppler entries
`'D<f>'`, and all remaining observables, which `dopest` never reads. -/
structure Record where
  flag  : String
  L     : List (Nat × Rat)
  D     : List (Nat × DVal)
  other : List (String × Rat)
deriving DecidableEq

/-- The sub-dictionary of one epoch: SV ID to observation record. -/
abbrev SatRec := List (Nat × Record)

/-- The nested RINEX dictionary: epoch to satellite sub-dictionary, listed
in chronological (insertion) order. -/
abbrev Store := List (Int × SatRec)

/-- Dict lookup: first entry with the given key. -/
def lookupA {α β : Type} [DecidableEq α] : List (α × β) → α → Option β
  | [], _ => none
  | (a, b) :: r, x => if a = x then some b else lookupA r x

/-- Dict assignment `d[a] = b`: overwrite the first entry with key `a` in
place, or append a fresh entry at the end. -/
def updateA {α β : Type} [DecidableEq α] : List (α × β) → α → β → List (α × β)
  | [], a, b => [(a, b)]
  | (a0, b0) :: r, a, b => if a0 = a then (a, b) :: r else (a0, b0) :: updateA r a b

/-- `rnxout[t][p]`, as an optional value. -/
def lookupRec (s : Store) (t : Int) (p : Nat) : Option Record :=
  match lookupA s t with
  | none => none
  | some m => lookupA m p

/-- `rnxout[t][p]['D' + str f]`, as an optional value. -/
def lookupD (s : Store) (t : Int) (p : Nat) (f : Nat) : Option DVal :=
  match lookupRec s t p with
  | none => none
  | some r => lookupA r.D f

/-- Whether satellite `p` has a record at epoch `t`. -/
def hasRec (s : Store) (t : Int) (p : Nat) : Bool :=
  (lookupRec s t p).isSome

/-- `r['D' + str f] = v` on one record. -/
def setDval (r : Record) (f : Nat) (v : DVal) : Record :=
  { r with D := updateA r.D f v }

/-- `m[p]['D' + str f] = v` inside one epoch's sub-dictionary; no effect
when `p` is absent (the guarded callers below check presence first). -/
def updSat : SatRec → Nat → Nat → DVal → SatRec
  | [], _, _, _ => []
  | (q, r) :: rest, p, f, v =>
    if q = p then (q, setDval r f v) :: rest else (q, r) :: updSat rest p f v

/-- `rnxout[t][p]['D' + str f] = v`; no effect when `t` or `p` is absent. -/
def storeSetD : Store → Int → Nat → Nat → DVal → Store
  | [], _, _, _, _ => []
  | (u, m) :: rest, t, p, f, v =>
    if u = t then (u, updSat m p f v) :: rest
    else (u, m) :: storeSetD rest t p f v

/-- The checked form of `rnxout[t][p]['D' + str f] = v`: `none` models the
`KeyError` that Python raises when epoch `t` or satellite `p` is absent. -/
def setDChecked (s : Store) (t : Int) (p f : Nat) (v : DVal) : Option Store :=
  if hasRec s t p then some (storeSetD s t p f v) else none

/-- `np.polyval`: Horner evaluation of a coefficient list given highest
degree first. -/
def polyval (c : List Rat) (x : Rat) : Rat :=
  c.foldl (fun acc a => acc * x + a) 0

/-- The two abnormal exits of `dopest`: `retFalse` is the `return False` of
line 125 (missing carrier-phase value); `keyError` is the uncaught lookup
failure of line 149. -/
inductive Err where
  | retFalse : Err
  | keyError : Err
deriving DecidableEq

/-- The mutable state of the epoch loop: the evolving output dictionary
`rnxout`, the carrier-phase buffer `L` (line 87), and `dopp_condition`
(line 78). -/
structure PState where
  out  : Store
  L    : List Rat
  cond : Bool
deriving DecidableEq

/-- Lines 148–150: `for k in reversed(range(0,len(D))):` assign
`rnxout[t-(k*rnxstep)][p]['D'+str(f)] = D[d]` with `d` counting up.  The
argument list is the zip of `[n-1, ..., 0]` with `D`, so the pairs arrive
exactly in the loop's order. -/
def writeBack (p f : Nat) (stepv : Int) (t : Int) :
    Store → List (Nat × Rat) → Option Store
  | s, [] => some s
  | s, (k, v) :: rest =>
    match setDChecked s (t - (k : Int) * stepv) p f (DVal.num v) with
    | none => none
    | some s2 => writeBack p f stepv t s2 rest

/-- Lines 96–125: the flag dispatch of one epoch.  When satellite `p` has no
record the state is unchanged.  A `solo`/`slip` flag writes the `'NaN'`
sentinel (line 104) and clears `dopp_condition`, leaving the buffer alone.
Any other flag updates the buffer/condition (the three sequential `if`s of
lines 110–116 on a flag that is a single string) and appends the band-`f`
carrier phase, or exits with `return False` when it is missing (line 125). -/
def flagStep (f p : Nat) (st : PState) (t : Int) : Except Err PState :=
  match lookupRec st.out t p with
  | none => Except.ok st
  | some r =>
    if r.flag = "solo" ∨ r.flag = "slip" then
      Except.ok ⟨storeSetD st.out t p f (DVal.str "NaN"), st.L, false⟩
    else
      let L0 := if r.flag = "start" then [] else st.L
      let c0 := if r.flag = "start" then false else st.cond
      let c1 := if r.flag = "none" then false else c0
      let c2 := if r.flag = "end" then true else c1
      match lookupA r.L f with
      | some x => Except.ok ⟨st.out, L0 ++ [x], c2⟩
      | none => Except.error Err.retFalse

/-- Lines 131–153: the arc estimation block run on a state whose
`dopp_condition` holds: numpy-rize the buffer, fit a degree-19 polynomial
over the normalised index grid, evaluate it at each index shifted by
`delta = 0.01`, form the finite-difference rates divided by
`delta * rnxstep.seconds`, and write them back; then reset the buffer and
the condition. -/
def arcEstimate (polyfit : List Rat → List Rat → Nat → List Rat)
    (stepv : Int) (secs : Rat) (f p : Nat) (t : Int) (s1 : PState) :
    Except Err PState :=
  let L := s1.L
  let n := L.length
  let coeff := polyfit ((List.range n).map (fun i => (i : Rat))) L 19
  let delta : Rat := 1 / 100
  let D : List Rat :=
    L.enum.map (fun iv => (iv.2 - polyval coeff ((iv.1 : Rat) + delta)) / (delta * secs))
  match writeBack p f stepv t s1.out ((List.range n).reverse.zip D) with
  | some out2 => Except.ok ⟨out2, [], false⟩
  | none => Except.error Err.keyError

/-- Lines 96–153: the body of `for t in rnxout`.  First the flag dispatch
and buffer update (96–125), then the arc estimation block (128–153), which
runs whenever `dopp_condition` is true after the dispatch. -/
def epochStep (polyfit : List Rat → List Rat → Nat → List Rat)
    (stepv : Int) (secs : Rat) (f p : Nat) (st : PState) (t : Int) :
    Except Err PState :=
  match flagStep f p st t with
  | Except.error e => Except.error e
  | Except.ok s1 =>
    if s1.cond then arcEstimate polyfit stepv secs f p t s1
    else Except.ok s1

/-- Line 90: `for t in rnxout`, run over an explicit epoch list. -/
def runEpochs (polyfit : List Rat → List Rat → Nat → List Rat)
    (stepv : Int) (secs : Rat) (f p : Nat) :
    List Int → PState → Except Err PState
  | [], st => Except.ok st
  | t :: ts, st =>
    match epochStep polyfit stepv secs f p st t with
    | Except.error e => Except.error e
    | Except.ok st2 => runEpochs polyfit stepv secs f p ts st2

/-- Lines 85–153: one satellite's pass.  The buffer `L` is reset at line 87;
`dopp_condition` is carried over from the previous pass (it is initialised
only once, at line 78).  The epoch list is read off the current `rnxout`,
whose keys the engine never changes. -/
def runSat (polyfit : List Rat → List Rat → Nat → List Rat)
    (stepv : Int) (secs : Rat) (f p : Nat) (st : Store × Bool) :
    Except Err (Store × Bool) :=
  match runEpochs polyfit stepv secs f p (st.1.map Prod.fst) ⟨st.1, [], st.2⟩ with
  | Except.error e => Except.error e
  | Except.ok r => Except.ok (r.out, r.cond)

/-- The `for p in goodsats` loop. -/
def runSats (polyfit : List Rat → List Rat → Nat → List Rat)
    (stepv : Int) (secs : Rat) (f : Nat) :
    List Nat → Store × Bool → Except Err (Store × Bool)
  | [], st => Except.ok st
  | p :: ps, st =>
    match runSat polyfit stepv secs f p st with
    | Except.error e => Except.error e
    | Except.ok st2 => runSats polyfit stepv secs f ps st2

/-- The `for f in range(1, 1+freqnum)` loop, over an explicit band list;
each band runs the satellite loop over `goodsats`. -/
def runFreqs (polyfit : List Rat → List Rat → Nat → List Rat)
    (stepv : Int) (secs : Rat) (goodsats : List Nat) :
    List Nat → Store × Bool → Except Err (Store × Bool)
  | [], st => Except.ok st
  | f :: fs, st =>
    match runSats polyfit stepv secs f goodsats st with
    | Except.error e => Except.error e
    | Except.ok st2 => runFreqs polyfit stepv secs goodsats fs st2

/-- `dopest(rnxdata, goodsats, tstart, tstop, rnxstep, inps)`, lines 47–156.
`tstart`/`tstop` are unused by the source body and omitted; `inps['freq']`
is the parameter `freqnum`. -/
def dopest (polyfit : List Rat → List Rat → Nat → List Rat)
    (rnxdata : Store) (goodsats : List Nat) (stepv : Int) (secs : Rat)
    (freqnum : Nat) : Except Err Store :=
  match runFreqs polyfit stepv secs goodsats ((List.range freqnum).map (· + 1)) (rnxdata, false) with
  | Except.error e => Except.error e
  | Except.ok r => Except.ok r.1

/-! ### Association-list lemmas -/

theorem lookupA_updateA_self {α β : Type} [DecidableEq α]
    (l : List (α × β)) (a : α) (b : β) :
    lookupA (updateA l a b) a = some b := by
  induction l with
  | nil => simp [updateA, lookupA]
  | cons hd tl ih =>
    obtain ⟨a0, b0⟩ := hd
    by_cases h : a0 = a <;> simp [updateA, lookupA, h, ih]

theorem lookupA_updateA_ne {α β : Type} [DecidableEq α]
    (l : List (α × β)) (a : α) (b : β) (a' : α) (h : a' ≠ a) :
    lookupA (updateA l a b) a' = lookupA l a' := by
  have h2 : a ≠ a' := Ne.symm h
  induction l with
  | nil => simp [updateA, lookupA, h2]
  | cons hd tl ih =>
    obtain ⟨a0, b0⟩ := hd
    by_cases h0 : a0 = a
    · subst h0
      simp [updateA, lookupA, h2]
    · simp only [updateA, if_neg h0, lookupA]
      by_cases h1 : a0 = a' <;> simp [h1, ih]

theorem lookupA_map {α β γ : Type} [DecidableEq α] (g : β → γ)
    (l : List (α × β)) (a : α) :
    lookupA (l.map (fun x => (x.1, g x.2))) a = (lookupA l a).map g := by
  induction l with
  | nil => simp [lookupA]
  | cons hd tl ih =>
    obtain ⟨a0, b0⟩ := hd
    by_cases h : a0 = a <;> simp [lookupA, h, ih]

/-! ### Lookup/update lemmas for the nested store -/

theorem lookupA_updSat_self (m : SatRec) (p f : Nat) (v : DVal) :
    lookupA (updSat m p f v) p = (lookupA m p).map (fun r => setDval r f v) := by
  induction m with
  | nil => simp [updSat, lookupA]
  | cons hd tl ih =>
    obtain ⟨q, r⟩ := hd
    by_cases h : q = p <;> simp [updSat, lookupA, h, ih]

theorem lookupA_updSat_ne (m : SatRec) (p f : Nat) (v : DVal) (q : Nat)
    (h : q ≠ p) : lookupA (updSat m p f v) q = lookupA m q := by
  have h2 : p ≠ q := Ne.symm h
  induction m with
  | nil => simp [updSat, lookupA]
  | cons hd tl ih =>
    obtain ⟨q0, r0⟩ := hd
    by_cases h0 : q0 = p
    · subst h0
      simp [updSat, lookupA, h2]
    · simp only [updSat, if_neg h0, lookupA]
      by_cases h1 : q0 = q <;> simp [h1, ih]

theorem lookupA_storeSetD_self (s : Store) (t : Int) (p f : Nat) (v : DVal) :
    lookupA (storeSetD s t p f v) t = (lookupA s t).map (fun m => updSat m p f v) := by
  induction s with
  | nil => simp [storeSetD, lookupA]
  | cons hd tl ih =>
    obtain ⟨u, m⟩ := hd
    by_cases h : u = t <;> simp [storeSetD, lookupA, h, ih]

theorem lookupA_storeSetD_ne (s : Store) (t : Int) (p f : Nat) (v : DVal)
    (u : Int) (h : u ≠ t) :
    lookupA (storeSetD s t p f v) u = lookupA s u := by
  have h2 : t ≠ u := Ne.symm h
  induction s with
  | nil => simp [storeSetD, lookupA]
  | cons hd tl ih =>
    obtain ⟨u0, m0⟩ := hd
    by_cases h0 : u0 = t
    · subst h0
      simp [storeSetD, lookupA, h2]
    · simp only [storeSetD, if_neg h0, lookupA]
      by_cases h1 : u0 = u <;> simp [h1, ih]

theorem lookupRec_storeSetD (s : Store) (t : Int) (p f : Nat) (v : DVal)
    (t' : Int) (p' : Nat) :
    lookupRec (storeSetD s t p f v) t' p' =
      if t' = t ∧ p' = p then (lookupRec s t p).map (fun r => setDval r f v)
      else lookupRec s t' p' := by
  by_cases ht : t' = t
  · subst ht
    by_cases hp : p' = p
    · subst hp
      simp only [lookupRec, lookupA_storeSetD_self, and_self, if_true]
      cases lookupA s t' with
      | none => rfl
      | some m => simp [lookupA_updSat_self]
    · simp only [lookupRec, lookupA_storeSetD_self, hp, and_false, if_false]
      cases lookupA s t' with
      | none => rfl
      | some m => simp [lookupA_updSat_ne _ _ _ _ _ hp, hp]
  · simp [lookupRec, lookupA_storeSetD_ne _ _ _ _ _ _ ht, ht]

theorem lookupD_storeSetD_self (s : Store) (t : Int) (p f : Nat) (v : DVal)
    (h : hasRec s t p = true) :
    lookupD (storeSetD s t p f v) t p f = some v := by
  have h2 : (lookupRec s t p).isSome := h
  cases hr : lookupRec s t p with
  | none => rw [hr] at h2; simp at h2
  | some r =>
    simp [lookupD, lookupRec_storeSetD, hr, setDval, lookupA_updateA_self]

theorem lookupD_storeSetD_ne (s : Store) (t : Int) (p f : Nat) (v : DVal)
    (t' : Int) (p' f' : Nat) (h : ¬(t' = t ∧ p' = p ∧ f' = f)) :
    lookupD (storeSetD s t p f v) t' p' f' = lookupD s t' p' f' := by
  by_cases htp : t' = t ∧ p' = p
  · obtain ⟨ht, hp⟩ := htp
    subst ht; subst hp
    have hf : f' ≠ f := fun hh => h ⟨rfl, rfl, hh⟩
    simp only [lookupD, lookupRec_storeSetD, and_self, if_true]
    cases lookupRec s t' p' with
    | none => rfl
    | some r => simp [setDval, lookupA_updateA_ne _ _ _ _ hf]
  · simp [lookupD, lookupRec_storeSetD, htp]

theorem hasRec_storeSetD (s : Store) (t : Int) (p f : Nat) (v : DVal)
    (t' : Int) (p' : Nat) :
    hasRec (storeSetD s t p f v) t' p' = hasRec s t' p' := by
  simp only [hasRec, lookupRec_storeSetD]
  by_cases htp : t' = t ∧ p' = p
  · obtain ⟨ht, hp⟩ := htp
    subst ht; subst hp
    simp only [and_self, if_true]
    cases lookupRec s t' p' <;> rfl
  · simp [htp]

/-! ### The frame of the engine: everything except the Doppler entries -/

/-- A record with its Doppler entries removed: the part of a record the
engine never changes. -/
def stripRec (r : Record) : Record := { r with D := [] }

/-- The store with all Doppler entries removed. -/
def stripD (s : Store) : Store :=
  s.map (fun em => (em.1, em.2.map (fun pr => (pr.1, stripRec pr.2))))

theorem stripRec_setDval (r : Record) (f : Nat) (v : DVal) :
    stripRec (setDval r f v) = stripRec r := rfl

theorem stripSat_updSat (m : SatRec) (p f : Nat) (v : DVal) :
    (updSat m p f v).map (fun pr => (pr.1, stripRec pr.2)) =
      m.map (fun pr => (pr.1, stripRec pr.2)) := by
  induction m with
  | nil => rfl
  | cons hd tl ih =>
    obtain ⟨q, r⟩ := hd
    by_cases h : q = p <;> simp [updSat, h, ih, stripRec_setDval]

theorem stripD_storeSetD (s : Store) (t : Int) (p f : Nat) (v : DVal) :
    stripD (storeSetD s t p f v) = stripD s := by
  induction s with
  | nil => rfl
  | cons hd tl ih =>
    obtain ⟨u, m⟩ := hd
    by_cases h : u = t
    · simp [storeSetD, stripD, h, stripSat_updSat, ih]
    · simp only [storeSetD, if_neg h, stripD, List.map_cons]
      simpa [stripD] using ih

theorem lookupRec_stripD (s : Store) (t : Int) (p : Nat) :
    lookupRec (stripD s) t p = (lookupRec s t p).map stripRec := by
  unfold lookupRec stripD
  rw [lookupA_map]
  cases lookupA s t with
  | none => rfl
  | some m => simp [lookupA_map]

theorem map_fst_stripD (s : Store) : (stripD s).map Prod.fst = s.map Prod.fst := by
  simp [stripD]

theorem map_fst_eq_of_stripD_eq {s u : Store} (h : stripD s = stripD u) :
    s.map Prod.fst = u.map Prod.fst := by
  rw [← map_fst_stripD s, ← map_fst_stripD u, h]

theorem hasRec_eq_of_stripD_eq {s u : Store} (h : stripD s = stripD u)
    (t : Int) (p : Nat) : hasRec s t p = hasRec u t p := by
  have h2 := congrArg (fun x => lookupRec x t p) h
  simp only [lookupRec_stripD] at h2
  unfold hasRec
  cases hs : lookupRec s t p <;> cases hu : lookupRec u t p <;>
    rw [hs, hu] at h2 <;> simp_all

theorem lookupRec_of_stripD_eq {s u : Store} (h : stripD s = stripD u)
    {t : Int} {p : Nat} {r : Record} (hs : lookupRec s t p = some r) :
    ∃ r', lookupRec u t p = some r' ∧ r'.flag = r.flag ∧ r'.L = r.L ∧
      r'.other = r.other := by
  have h2 := congrArg (fun x => lookupRec x t p) h
  simp only [lookupRec_stripD] at h2
  cases hu : lookupRec u t p with
  | none => rw [hs, hu] at h2; simp at h2
  | some r' =>
    rw [hs, hu] at h2
    simp only [Option.map_some'] at h2
    have h3 : stripRec r' = stripRec r := by
      injection h2 with h3
      exact h3.symm
    refine ⟨r', rfl, ?_, ?_, ?_⟩
    · have h4 := congrArg Record.flag h3
      exact h4
    · have h4 := congrArg Record.L h3
      exact h4
    · have h4 := congrArg Record.other h3
      exact h4

/-! ### How single writes affect Doppler values -/

theorem lookupD_storeSetD_absent (s : Store) (t : Int) (p f : Nat) (v : DVal)
    (h : hasRec s t p = false) (f' : Nat) :
    lookupD (storeSetD s t p f v) t p f' = none := by
  have h2 : lookupRec s t p = none := by
    unfold hasRec at h
    cases hr : lookupRec s t p
    · rfl
    · rw [hr] at h; simp at h
  simp [lookupD, lookupRec_storeSetD, h2]

theorem isSome_lookupD_storeSetD (s : Store) (t : Int) (p f : Nat) (v : DVal)
    (t' : Int) (p' f' : Nat) (hsome : (lookupD s t' p' f').isSome) :
    (lookupD (storeSetD s t p f v) t' p' f').isSome := by
  by_cases hk : t' = t ∧ p' = p ∧ f' = f
  · obtain ⟨h1, h2, h3⟩ := hk
    subst h1; subst h2; subst h3
    have hrec : hasRec s t' p' = true := by
      unfold hasRec
      cases hr : lookupRec s t' p'
      · rw [lookupD, hr] at hsome; simp at hsome
      · rfl
    rw [lookupD_storeSetD_self _ _ _ _ _ hrec]
    rfl
  · rw [lookupD_storeSetD_ne _ _ _ _ _ _ _ _ hk]
    exact hsome

theorem storeSetD_vals (s : Store) (t : Int) (p f : Nat) (v : DVal)
    (t' : Int) (p' f' : Nat) (w : DVal)
    (hw : lookupD (storeSetD s t p f v) t' p' f' = some w) :
    lookupD s t' p' f' = some w ∨ w = v := by
  by_cases hk : t' = t ∧ p' = p ∧ f' = f
  · obtain ⟨h1, h2, h3⟩ := hk
    subst h1; subst h2; subst h3
    cases hrec : hasRec s t' p' with
    | false => rw [lookupD_storeSetD_absent _ _ _ _ _ hrec] at hw; cases hw
    | true =>
      rw [lookupD_storeSetD_self _ _ _ _ _ hrec] at hw
      right
      injection hw with hw
      exact hw.symm
  · rw [lookupD_storeSetD_ne _ _ _ _ _ _ _ _ hk] at hw
    exact Or.inl hw

/-! ### Write-back loop lemmas (lines 148–150) -/

theorem writeBack_hasRec (p f : Nat) (stepv t : Int) (pairs : List (Nat × Rat))
    (s s' : Store) (h : writeBack p f stepv t s pairs = some s')
    (t' : Int) (p' : Nat) : hasRec s' t' p' = hasRec s t' p' := by
  induction pairs generalizing s with
  | nil =>
    unfold writeBack at h
    injection h with h
    rw [h]
  | cons hd rest ih =>
    obtain ⟨k, v⟩ := hd
    unfold writeBack setDChecked at h
    by_cases hrec : hasRec s (t - (k : Int) * stepv) p = true
    · rw [if_pos hrec] at h
      simp only at h
      rw [ih _ h, hasRec_storeSetD]
    · rw [if_neg hrec] at h
      cases h

theorem stripD_writeBack (p f : Nat) (stepv t : Int) (pairs : List (Nat × Rat))
    (s s' : Store) (h : writeBack p f stepv t s pairs = some s') :
    stripD s' = stripD s := by
  induction pairs generalizing s with
  | nil =>
    unfold writeBack at h
    injection h with h
    rw [h]
  | cons hd rest ih =>
    obtain ⟨k, v⟩ := hd
    unfold writeBack setDChecked at h
    by_cases hrec : hasRec s (t - (k : Int) * stepv) p = true
    · rw [if_pos hrec] at h
      simp only at h
      rw [ih _ h, stripD_storeSetD]
    · rw [if_neg hrec] at h
      cases h

theorem writeBack_isSome_iff (p f : Nat) (stepv t : Int)
    (pairs : List (Nat × Rat)) (s : Store) :
    (writeBack p f stepv t s pairs).isSome = true ↔
      ∀ k v, (k, v) ∈ pairs → hasRec s (t - (k : Int) * stepv) p = true := by
  induction pairs generalizing s with
  | nil => simp [writeBack]
  | cons hd rest ih =>
    obtain ⟨k0, v0⟩ := hd
    unfold writeBack setDChecked
    by_cases hrec : hasRec s (t - (k0 : Int) * stepv) p = true
    · rw [if_pos hrec]
      simp only []
      rw [ih]
      constructor
      · intro hall k v hmem
        rcases List.mem_cons.mp hmem with heq | hmem2
        · cases heq; exact hrec
        · rw [← hasRec_storeSetD s (t - (k0 : Int) * stepv) p f (DVal.num v0) (t - (k : Int) * stepv) p]
          exact hall k v hmem2
      · intro hall k v hmem
        rw [hasRec_storeSetD]
        exact hall k v (List.mem_cons_of_mem _ hmem)
    · rw [if_neg hrec]
      simp only [Option.isSome_none, Bool.false_eq_true, false_iff]
      intro hall
      exact hrec (hall k0 v0 (List.mem_cons_self _ _))

theorem writeBack_unchanged (p f : Nat) (stepv t : Int)
    (pairs : List (Nat × Rat)) (s s' : Store)
    (h : writeBack p f stepv t s pairs = some s')
    (t' : Int) (p' f' : Nat)
    (hmiss : ∀ k v, (k, v) ∈ pairs → ¬(t' = t - (k : Int) * stepv ∧ p' = p ∧ f' = f)) :
    lookupD s' t' p' f' = lookupD s t' p' f' := by
  induction pairs generalizing s with
  | nil =>
    unfold writeBack at h
    injection h with h
    rw [h]
  | cons hd rest ih =>
    obtain ⟨k, v⟩ := hd
    unfold writeBack setDChecked at h
    by_cases hrec : hasRec s (t - (k : Int) * stepv) p = true
    · rw [if_pos hrec] at h
      simp only at h
      rw [ih _ h (fun k2 v2 hm => hmiss k2 v2 (List.mem_cons_of_mem _ hm))]
      exact lookupD_storeSetD_ne _ _ _ _ _ _ _ _
        (hmiss k v (List.mem_cons_self _ _))
    · rw [if_neg hrec] at h
      cases h

theorem writeBack_written (p f : Nat) (stepv t : Int)
    (pairs : List (Nat × Rat)) (s s' : Store)
    (h : writeBack p f stepv t s pairs = some s')
    (hstep : stepv ≠ 0) (hnd : (pairs.map Prod.fst).Nodup)
    (k : Nat) (v : Rat) (hmem : (k, v) ∈ pairs) :
    lookupD s' (t - (k : Int) * stepv) p f = some (DVal.num v) := by
  induction pairs generalizing s with
  | nil => cases hmem
  | cons hd rest ih =>
    obtain ⟨k0, v0⟩ := hd
    unfold writeBack setDChecked at h
    by_cases hrec : hasRec s (t - (k0 : Int) * stepv) p = true
    · rw [if_pos hrec] at h
      simp only at h
      rcases List.mem_cons.mp hmem with heq | hmem2
      · injection heq with h1 h2
        subst h1; subst h2
        rw [writeBack_unchanged _ _ _ _ _ _ _ h _ _ _ ?side]
        · exact lookupD_storeSetD_self _ _ _ _ _ hrec
        case side =>
          intro k2 v2 hm2 hbad
          obtain ⟨hbad1, _, _⟩ := hbad
          have hk2 : (k : Int) = (k2 : Int) := by
            have hmul : (k : Int) * stepv = (k2 : Int) * stepv :=
              sub_right_inj.mp hbad1
            exact mul_right_cancel₀ hstep hmul
          have hkk : k = k2 := by exact_mod_cast hk2
          subst hkk
          simp only [List.map_cons, List.nodup_cons] at hnd
          exact hnd.1 (List.mem_map.mpr ⟨(k, v2), hm2, rfl⟩)
      · simp only [List.map_cons, List.nodup_cons] at hnd
        exact ih _ h hnd.2 hmem2
    · rw [if_neg hrec] at h
      cases h

theorem writeBack_vals (p f : Nat) (stepv t : Int)
    (pairs : List (Nat × Rat)) (s s' : Store)
    (h : writeBack p f stepv t s pairs = some s')
    (t' : Int) (p' f' : Nat) (w : DVal)
    (hw : lookupD s' t' p' f' = some w) :
    lookupD s t' p' f' = some w ∨ ∃ q, w = DVal.num q := by
  induction pairs generalizing s with
  | nil =>
    unfold writeBack at h
    injection h with h
    subst h
    exact Or.inl hw
  | cons hd rest ih =>
    obtain ⟨k, v⟩ := hd
    unfold writeBack setDChecked at h
    by_cases hrec : hasRec s (t - (k : Int) * stepv) p = true
    · rw [if_pos hrec] at h
      simp only at h
      rcases ih _ h with h2 | h2
      · rcases storeSetD_vals _ _ _ _ _ _ _ _ _ h2 with h3 | h3
        · exact Or.inl h3
        · exact Or.inr ⟨v, h3⟩
      · exact Or.inr h2
    · rw [if_neg hrec] at h
      cases h

theorem isSome_lookupD_writeBack (p f : Nat) (stepv t : Int)
    (pairs : List (Nat × Rat)) (s s' : Store)
    (h : writeBack p f stepv t s pairs = some s')
    (t' : Int) (p' f' : Nat) (hsome : (lookupD s t' p' f').isSome) :
    (lookupD s' t' p' f').isSome := by
  induction pairs generalizing s with
  | nil =>
    unfold writeBack at h
    injection h with h
    subst h
    exact hsome
  | cons hd rest ih =>
    obtain ⟨k, v⟩ := hd
    unfold writeBack setDChecked at h
    by_cases hrec : hasRec s (t - (k : Int) * stepv) p = true
    · rw [if_pos hrec] at h
      simp only at h
      exact ih _ h (isSome_lookupD_storeSetD _ _ _ _ _ _ _ _ hsome)
    · rw [if_neg hrec] at h
      cases h

/-! ### Case lemmas for the flag dispatch (lines 96–125) -/

theorem flagStep_none (f p : Nat) (st : PState) (t : Int)
    (h : lookupRec st.out t p = none) :
    flagStep f p st t = Except.ok st := by
  simp [flagStep, h]

theorem flagStep_solo (f p : Nat) (st : PState) (t : Int) (r : Record)
    (hr : lookupRec st.out t p = some r)
    (hfl : r.flag = "solo" ∨ r.flag = "slip") :
    flagStep f p st t =
      Except.ok ⟨storeSetD st.out t p f (DVal.str "NaN"), st.L, false⟩ := by
  simp only [flagStep, hr]
  rw [if_pos hfl]

theorem flagStep_obs (f p : Nat) (st : PState) (t : Int) (r : Record)
    (x : Rat) (hr : lookupRec st.out t p = some r)
    (hfl : ¬(r.flag = "solo" ∨ r.flag = "slip"))
    (hx : lookupA r.L f = some x) :
    flagStep f p st t =
      Except.ok ⟨st.out, (if r.flag = "start" then [] else st.L) ++ [x],
        if r.flag = "end" then true
        else if r.flag = "none" then false
        else if r.flag = "start" then false
        else st.cond⟩ := by
  simp only [flagStep, hr]
  rw [if_neg hfl]
  simp only [hx]

theorem flagStep_missing (f p : Nat) (st : PState) (t : Int) (r : Record)
    (hr : lookupRec st.out t p = some r)
    (hfl : ¬(r.flag = "solo" ∨ r.flag = "slip"))
    (hx : lookupA r.L f = none) :
    flagStep f p st t = Except.error Err.retFalse := by
  simp only [flagStep, hr]
  rw [if_neg hfl]
  simp only [hx]

theorem flagStep_stripD (f p : Nat) (st : PState) (t : Int) (st2 : PState)
    (h : flagStep f p st t = Except.ok st2) :
    stripD st2.out = stripD st.out := by
  cases hr : lookupRec st.out t p with
  | none =>
    rw [flagStep_none _ _ _ _ hr] at h
    injection h with h
    rw [← h]
  | some r =>
    by_cases hfl : r.flag = "solo" ∨ r.flag = "slip"
    · rw [flagStep_solo _ _ _ _ _ hr hfl] at h
      injection h with h
      rw [← h]
      exact stripD_storeSetD _ _ _ _ _
    · cases hx : lookupA r.L f with
      | none => rw [flagStep_missing _ _ _ _ _ hr hfl hx] at h; cases h
      | some x =>
        rw [flagStep_obs _ _ _ _ _ _ hr hfl hx] at h
        injection h with h
        rw [← h]

theorem flagStep_isSomeD (f p : Nat) (st : PState) (t : Int) (st2 : PState)
    (h : flagStep f p st t = Except.ok st2) (t' : Int) (p' f' : Nat)
    (hsome : (lookupD st.out t' p' f').isSome) :
    (lookupD st2.out t' p' f').isSome := by
  cases hr : lookupRec st.out t p with
  | none =>
    rw [flagStep_none _ _ _ _ hr] at h
    injection h with h
    rw [← h]
    exact hsome
  | some r =>
    by_cases hfl : r.flag = "solo" ∨ r.flag = "slip"
    · rw [flagStep_solo _ _ _ _ _ hr hfl] at h
      injection h with h
      rw [← h]
      exact isSome_lookupD_storeSetD _ _ _ _ _ _ _ _ hsome
    · cases hx : lookupA r.L f with
      | none => rw [flagStep_missing _ _ _ _ _ hr hfl hx] at h; cases h
      | some x =>
        rw [flagStep_obs _ _ _ _ _ _ hr hfl hx] at h
        injection h with h
        rw [← h]
        exact hsome

theorem flagStep_vals (f p : Nat) (st : PState) (t : Int) (st2 : PState)
    (h : flagStep f p st t = Except.ok st2) (t' : Int) (p' f' : Nat)
    (w : DVal) (hw : lookupD st2.out t' p' f' = some w) :
    lookupD st.out t' p' f' = some w ∨ w = DVal.str "NaN" := by
  cases hr : lookupRec st.out t p with
  | none =>
    rw [flagStep_none _ _ _ _ hr] at h
    injection h with h
    rw [← h] at hw
    exact Or.inl hw
  | some r =>
    by_cases hfl : r.flag = "solo" ∨ r.flag = "slip"
    · rw [flagStep_solo _ _ _ _ _ hr hfl] at h
      injection h with h
      rw [← h] at hw
      rcases storeSetD_vals _ _ _ _ _ _ _ _ _ hw with h2 | h2
      · exact Or.inl h2
      · exact Or.inr h2
    · cases hx : lookupA r.L f with
      | none => rw [flagStep_missing _ _ _ _ _ hr hfl hx] at h; cases h
      | some x =>
        rw [flagStep_obs _ _ _ _ _ _ hr hfl hx] at h
        injection h with h
        rw [← h] at hw
        exact Or.inl hw

/-! ### Case lemmas for the estimation block (lines 128–153) -/

theorem arcEstimate_stripD (polyfit : List Rat → List Rat → Nat → List Rat)
    (stepv : Int) (secs : Rat) (f p : Nat) (t : Int) (s1 st2 : PState)
    (h : arcEstimate polyfit stepv secs f p t s1 = Except.ok st2) :
    stripD st2.out = stripD s1.out := by
  simp only [arcEstimate] at h
  split at h
  · injection h with h
    rw [← h]
    exact stripD_writeBack _ _ _ _ _ _ _ (by assumption)
  · cases h

theorem arcEstimate_isSomeD (polyfit : List Rat → List Rat → Nat → List Rat)
    (stepv : Int) (secs : Rat) (f p : Nat) (t : Int) (s1 st2 : PState)
    (h : arcEstimate polyfit stepv secs f p t s1 = Except.ok st2)
    (t' : Int) (p' f' : Nat)
    (hsome : (lookupD s1.out t' p' f').isSome) :
    (lookupD st2.out t' p' f').isSome := by
  simp only [arcEstimate] at h
  split at h
  · injection h with h
    rw [← h]
    exact isSome_lookupD_writeBack _ _ _ _ _ _ _ (by assumption) _ _ _ hsome
  · cases h

theorem arcEstimate_vals (polyfit : List Rat → List Rat → Nat → List Rat)
    (stepv : Int) (secs : Rat) (f p : Nat) (t : Int) (s1 st2 : PState)
    (h : arcEstimate polyfit stepv secs f p t s1 = Except.ok st2)
    (t' : Int) (p' f' : Nat) (w : DVal)
    (hw : lookupD st2.out t' p' f' = some w) :
    lookupD s1.out t' p' f' = some w ∨ ∃ q, w = DVal.num q := by
  simp only [arcEstimate] at h
  split at h
  · injection h with h
    rw [← h] at hw
    exact writeBack_vals _ _ _ _ _ _ _ (by assumption) _ _ _ _ hw
  · cases h

/-! ### Case lemmas for the whole epoch body -/

theorem epochStep_stripD (polyfit : List Rat → List Rat → Nat → List Rat)
    (stepv : Int) (secs : Rat) (f p : Nat) (st : PState) (t : Int)
    (st2 : PState)
    (h : epochStep polyfit stepv secs f p st t = Except.ok st2) :
    stripD st2.out = stripD st.out := by
  unfold epochStep at h
  cases hfs : flagStep f p st t with
  | error e => rw [hfs] at h; cases h
  | ok s1 =>
    rw [hfs] at h
    simp only at h
    have h1 := flagStep_stripD _ _ _ _ _ hfs
    by_cases hc : s1.cond = true
    · rw [if_pos hc] at h
      exact (arcEstimate_stripD _ _ _ _ _ _ _ _ h).trans h1
    · rw [if_neg hc] at h
      injection h with h
      rw [← h]
      exact h1

theorem epochStep_isSomeD (polyfit : List Rat → List Rat → Nat → List Rat)
    (stepv : Int) (secs : Rat) (f p : Nat) (st : PState) (t : Int)
    (st2 : PState)
    (h : epochStep polyfit stepv secs f p st t = Except.ok st2)
    (t' : Int) (p' f' : Nat)
    (hsome : (lookupD st.out t' p' f').isSome) :
    (lookupD st2.out t' p' f').isSome := by
  unfold epochStep at h
  cases hfs : flagStep f p st t with
  | error e => rw [hfs] at h; cases h
  | ok s1 =>
    rw [hfs] at h
    simp only at h
    have h1 := flagStep_isSomeD _ _ _ _ _ hfs _ _ _ hsome
    by_cases hc : s1.cond = true
    · rw [if_pos hc] at h
      exact arcEstimate_isSomeD _ _ _ _ _ _ _ _ h _ _ _ h1
    · rw [if_neg hc] at h
      injection h with h
      rw [← h]
      exact h1

theorem epochStep_vals (polyfit : List Rat → List Rat → Nat → List Rat)
    (stepv : Int) (secs : Rat) (f p : Nat) (st : PState) (t : Int)
    (st2 : PState)
    (h : epochStep polyfit stepv secs f p st t = Except.ok st2)
    (t' : Int) (p' f' : Nat) (w : DVal)
    (hw : lookupD st2.out t' p' f' = some w) :
    lookupD st.out t' p' f' = some w ∨ w = DVal.str "NaN" ∨ ∃ q, w = DVal.num q := by
  unfold epochStep at h
  cases hfs : flagStep f p st t with
  | error e => rw [hfs] at h; cases h
  | ok s1 =>
    rw [hfs] at h
    simp only at h
    by_cases hc : s1.cond = true
    · rw [if_pos hc] at h
      rcases arcEstimate_vals _ _ _ _ _ _ _ _ h _ _ _ _ hw with h2 | h2
      · rcases flagStep_vals _ _ _ _ _ hfs _ _ _ _ h2 with h3 | h3
        · exact Or.inl h3
        · exact Or.inr (Or.inl h3)
      · exact Or.inr (Or.inr h2)
    · rw [if_neg hc] at h
      injection h with h
      rw [← h] at hw
      rcases flagStep_vals _ _ _ _ _ hfs _ _ _ _ hw with h2 | h2
      · exact Or.inl h2
      · exact Or.inr (Or.inl h2)

theorem epochStep_solo (polyfit : List Rat → List Rat → Nat → List Rat)
    (stepv : Int) (secs : Rat) (f p : Nat) (st : PState) (t : Int)
    (r : Record) (hr : lookupRec st.out t p = some r)
    (hfl : r.flag = "solo" ∨ r.flag = "slip") :
    epochStep polyfit stepv secs f p st t =
      Except.ok ⟨storeSetD st.out t p f (DVal.str "NaN"), st.L, false⟩ := by
  unfold epochStep
  rw [flagStep_solo _ _ _ _ _ hr hfl]
  rfl

theorem epochStep_missing (polyfit : List Rat → List Rat → Nat → List Rat)
    (stepv : Int) (secs : Rat) (f p : Nat) (st : PState) (t : Int)
    (r : Record) (hr : lookupRec st.out t p = some r)
    (hfl : ¬(r.flag = "solo" ∨ r.flag = "slip"))
    (hx : lookupA r.L f = none) :
    epochStep polyfit stepv secs f p st t = Except.error Err.retFalse := by
  unfold epochStep
  rw [flagStep_missing _ _ _ _ _ hr hfl hx]

theorem epochStep_end (polyfit : List Rat → List Rat → Nat → List Rat)
    (stepv : Int) (secs : Rat) (f p : Nat) (st : PState) (t : Int)
    (r : Record) (x : Rat) (hr : lookupRec st.out t p = some r)
    (hflag : r.flag = "end") (hx : lookupA r.L f = some x) :
    epochStep polyfit stepv secs f p st t =
      arcEstimate polyfit stepv secs f p t ⟨st.out, st.L ++ [x], true⟩ := by
  have hfl : ¬(r.flag = "solo" ∨ r.flag = "slip") := by
    rw [hflag]; decide
  unfold epochStep
  rw [flagStep_obs _ _ _ _ _ _ hr hfl hx, hflag]
  simp

/-- Characterisation of a successful arc estimation: when every arithmetic
write-back target `t - k*stepv` (`k < n`, `n` the buffer length) has a
record for satellite `p` and the step is nonzero, the block succeeds, the
buffer index `i` (oldest = 0) receives the finite-difference value of the
degree-19 fit at epoch `t - (n-1-i)*stepv`, and no other Doppler entry of
the store changes. -/
theorem arcEstimate_spec (polyfit : List Rat → List Rat → Nat → List Rat)
    (stepv : Int) (secs : Rat) (f p : Nat) (t : Int) (s1 : PState)
    (hstep : stepv ≠ 0)
    (hall : ∀ k, k < s1.L.length → hasRec s1.out (t - (k : Int) * stepv) p = true) :
    ∃ out2,
      arcEstimate polyfit stepv secs f p t s1 = Except.ok ⟨out2, [], false⟩ ∧
      (∀ i, (hi : i < s1.L.length) →
        lookupD out2 (t - ((s1.L.length - 1 - i : Nat) : Int) * stepv) p f =
          some (DVal.num ((s1.L.get ⟨i, hi⟩ -
            polyval (polyfit ((List.range s1.L.length).map (fun j => (j : Rat))) s1.L 19)
              ((i : Rat) + 1 / 100)) / (1 / 100 * secs)))) ∧
      (∀ t' p' f', (p' ≠ p ∨ f' ≠ f ∨ ∀ k, k < s1.L.length → t' ≠ t - (k : Int) * stepv) →
        lookupD out2 t' p' f' = lookupD s1.out t' p' f') := by
  have harc : arcEstimate polyfit stepv secs f p t s1 =
      (match writeBack p f stepv t s1.out
          ((List.range s1.L.length).reverse.zip
            (s1.L.enum.map (fun iv =>
              (iv.2 - polyval (polyfit ((List.range s1.L.length).map (fun i => (i : Rat))) s1.L 19)
                ((iv.1 : Rat) + 1 / 100)) / (1 / 100 * secs)))) with
        | some o => Except.ok (⟨o, [], false⟩ : PState)
        | none => Except.error Err.keyError) := rfl
  have hDlen : (s1.L.enum.map (fun iv =>
      (iv.2 - polyval (polyfit ((List.range s1.L.length).map (fun i => (i : Rat))) s1.L 19)
        ((iv.1 : Rat) + 1 / 100)) / (1 / 100 * secs))).length = s1.L.length := by
    simp
  have hRlen : (List.range s1.L.length).reverse.length = s1.L.length := by simp
  have hfst : ((List.range s1.L.length).reverse.zip
      (s1.L.enum.map (fun iv =>
        (iv.2 - polyval (polyfit ((List.range s1.L.length).map (fun i => (i : Rat))) s1.L 19)
          ((iv.1 : Rat) + 1 / 100)) / (1 / 100 * secs)))).map Prod.fst =
      (List.range s1.L.length).reverse :=
    List.map_fst_zip _ _ (by rw [hDlen, hRlen])
  have hmemk : ∀ k v, (k, v) ∈ ((List.range s1.L.length).reverse.zip
      (s1.L.enum.map (fun iv =>
        (iv.2 - polyval (polyfit ((List.range s1.L.length).map (fun i => (i : Rat))) s1.L 19)
          ((iv.1 : Rat) + 1 / 100)) / (1 / 100 * secs)))) → k < s1.L.length := by
    intro k v hm
    have h1 := (List.of_mem_zip hm).1
    rw [List.mem_reverse, List.mem_range] at h1
    exact h1
  have hsome : (writeBack p f stepv t s1.out
      ((List.range s1.L.length).reverse.zip
        (s1.L.enum.map (fun iv =>
          (iv.2 - polyval (polyfit ((List.range s1.L.length).map (fun i => (i : Rat))) s1.L 19)
            ((iv.1 : Rat) + 1 / 100)) / (1 / 100 * secs))))).isSome = true := by
    rw [writeBack_isSome_iff]
    intro k v hm
    exact hall k (hmemk k v hm)
  obtain ⟨out2, hwb⟩ := Option.isSome_iff_exists.mp hsome
  have hnd : (((List.range s1.L.length).reverse.zip
      (s1.L.enum.map (fun iv =>
        (iv.2 - polyval (polyfit ((List.range s1.L.length).map (fun i => (i : Rat))) s1.L 19)
          ((iv.1 : Rat) + 1 / 100)) / (1 / 100 * secs)))).map Prod.fst).Nodup := by
    rw [hfst]
    exact List.nodup_reverse.mpr (List.nodup_range _)
  refine ⟨out2, ?_, ?_, ?_⟩
  · rw [harc, hwb]
  · intro i hi
    have hplen : i < ((List.range s1.L.length).reverse.zip
        (s1.L.enum.map (fun iv =>
          (iv.2 - polyval (polyfit ((List.range s1.L.length).map (fun i => (i : Rat))) s1.L 19)
            ((iv.1 : Rat) + 1 / 100)) / (1 / 100 * secs)))).length := by
      rw [List.length_zip, hDlen, hRlen]
      simpa using hi
    have hri : i < (List.range s1.L.length).reverse.length := by rw [hRlen]; exact hi
    have hdi : i < (s1.L.enum.map (fun iv =>
        (iv.2 - polyval (polyfit ((List.range s1.L.length).map (fun i => (i : Rat))) s1.L 19)
          ((iv.1 : Rat) + 1 / 100)) / (1 / 100 * secs))).length := by
      rw [hDlen]; exact hi
    have hget : ((List.range s1.L.length).reverse.zip
        (s1.L.enum.map (fun iv =>
          (iv.2 - polyval (polyfit ((List.range s1.L.length).map (fun i => (i : Rat))) s1.L 19)
            ((iv.1 : Rat) + 1 / 100)) / (1 / 100 * secs))))[i] =
        (s1.L.length - 1 - i,
          (s1.L.get ⟨i, hi⟩ -
            polyval (polyfit ((List.range s1.L.length).map (fun j => (j : Rat))) s1.L 19)
              ((i : Rat) + 1 / 100)) / (1 / 100 * secs)) := by
      rw [List.getElem_zip]
      congr 1
      · rw [List.getElem_reverse, List.getElem_range]
        simp
      · rw [List.getElem_map, List.getElem_enum]
        simp [List.get_eq_getElem]
    have hmem : (s1.L.length - 1 - i,
        (s1.L.get ⟨i, hi⟩ -
          polyval (polyfit ((List.range s1.L.length).map (fun j => (j : Rat))) s1.L 19)
            ((i : Rat) + 1 / 100)) / (1 / 100 * secs)) ∈
        ((List.range s1.L.length).reverse.zip
          (s1.L.enum.map (fun iv =>
            (iv.2 - polyval (polyfit ((List.range s1.L.length).map (fun i => (i : Rat))) s1.L 19)
              ((iv.1 : Rat) + 1 / 100)) / (1 / 100 * secs)))) := by
      rw [← hget]
      exact List.getElem_mem hplen
    exact writeBack_written _ _ _ _ _ _ _ hwb hstep hnd _ _ hmem
  · intro t' p' f' hcond
    refine writeBack_unchanged _ _ _ _ _ _ _ hwb _ _ _ ?_
    intro k v hm hbad
    obtain ⟨hb1, hb2, hb3⟩ := hbad
    rcases hcond with hc | hc | hc
    · exact hc hb2
    · exact hc hb3
    · exact hc k (hmemk k v hm) hb1

/-! ### Run-level decomposition and invariant preservation -/

theorem runEpochs_append (polyfit : List Rat → List Rat → Nat → List Rat)
    (stepv : Int) (secs : Rat) (f p : Nat) (ts1 ts2 : List Int) (st : PState) :
    runEpochs polyfit stepv secs f p (ts1 ++ ts2) st =
      match runEpochs polyfit stepv secs f p ts1 st with
      | Except.error e => Except.error e
      | Except.ok st2 => runEpochs polyfit stepv secs f p ts2 st2 := by
  induction ts1 generalizing st with
  | nil => rfl
  | cons t ts ih =>
    simp only [List.cons_append, runEpochs]
    cases epochStep polyfit stepv secs f p st t with
    | error e => rfl
    | ok st2 => exact ih st2

theorem runSats_append (polyfit : List Rat → List Rat → Nat → List Rat)
    (stepv : Int) (secs : Rat) (f : Nat) (ps1 ps2 : List Nat)
    (st : Store × Bool) :
    runSats polyfit stepv secs f (ps1 ++ ps2) st =
      match runSats polyfit stepv secs f ps1 st with
      | Except.error e => Except.error e
      | Except.ok st2 => runSats polyfit stepv secs f ps2 st2 := by
  induction ps1 generalizing st with
  | nil => rfl
  | cons p ps ih =>
    simp only [List.cons_append, runSats]
    cases runSat polyfit stepv secs f p st with
    | error e => rfl
    | ok st2 => exact ih st2

theorem runFreqs_append (polyfit : List Rat → List Rat → Nat → List Rat)
    (stepv : Int) (secs : Rat) (goodsats : List Nat) (fs1 fs2 : List Nat)
    (st : Store × Bool) :
    runFreqs polyfit stepv secs goodsats (fs1 ++ fs2) st =
      match runFreqs polyfit stepv secs goodsats fs1 st with
      | Except.error e => Except.error e
      | Except.ok st2 => runFreqs polyfit stepv secs goodsats fs2 st2 := by
  induction fs1 generalizing st with
  | nil => rfl
  | cons f fs ih =>
    simp only [List.cons_append, runFreqs]
    cases runSats polyfit stepv secs f goodsats st with
    | error e => rfl
    | ok st2 => exact ih st2

theorem runEpochs_pres (polyfit : List Rat → List Rat → Nat → List Rat)
    (stepv : Int) (secs : Rat) (P : Store → Prop)
    (hP : ∀ f p st t st2, epochStep polyfit stepv secs f p st t = Except.ok st2 →
      P st.out → P st2.out)
    (f p : Nat) (ts : List Int) (st st2 : PState)
    (h : runEpochs polyfit stepv secs f p ts st = Except.ok st2)
    (h0 : P st.out) : P st2.out := by
  induction ts generalizing st with
  | nil =>
    unfold runEpochs at h
    injection h with h
    rw [← h]
    exact h0
  | cons t ts ih =>
    unfold runEpochs at h
    cases hes : epochStep polyfit stepv secs f p st t with
    | error e => rw [hes] at h; cases h
    | ok stm =>
      rw [hes] at h
      exact ih _ h (hP f p st t stm hes h0)

theorem runSat_pres (polyfit : List Rat → List Rat → Nat → List Rat)
    (stepv : Int) (secs : Rat) (P : Store → Prop)
    (hP : ∀ f p st t st2, epochStep polyfit stepv secs f p st t = Except.ok st2 →
      P st.out → P st2.out)
    (f p : Nat) (st st2 : Store × Bool)
    (h : runSat polyfit stepv secs f p st = Except.ok st2)
    (h0 : P st.1) : P st2.1 := by
  unfold runSat at h
  cases hre : runEpochs polyfit stepv secs f p (st.1.map Prod.fst) ⟨st.1, [], st.2⟩ with
  | error e => rw [hre] at h; cases h
  | ok r =>
    rw [hre] at h
    injection h with h
    rw [← h]
    exact runEpochs_pres polyfit stepv secs P hP f p _ _ _ hre h0

theorem runSats_pres (polyfit : List Rat → List Rat → Nat → List Rat)
    (stepv : Int) (secs : Rat) (P : Store → Prop)
    (hP : ∀ f p st t st2, epochStep polyfit stepv secs f p st t = Except.ok st2 →
      P st.out → P st2.out)
    (f : Nat) (ps : List Nat) (st st2 : Store × Bool)
    (h : runSats polyfit stepv secs f ps st = Except.ok st2)
    (h0 : P st.1) : P st2.1 := by
  induction ps generalizing st with
  | nil =>
    unfold runSats at h
    injection h with h
    rw [← h]
    exact h0
  | cons p ps ih =>
    unfold runSats at h
    cases hrs : runSat polyfit stepv secs f p st with
    | error e => rw [hrs] at h; cases h
    | ok stm =>
      rw [hrs] at h
      exact ih _ h (runSat_pres polyfit stepv secs P hP f p _ _ hrs h0)

theorem runFreqs_pres (polyfit : List Rat → List Rat → Nat → List Rat)
    (stepv : Int) (secs : Rat) (P : Store → Prop)
    (hP : ∀ f p st t st2, epochStep polyfit stepv secs f p st t = Except.ok st2 →
      P st.out → P st2.out)
    (goodsats : List Nat) (fs : List Nat) (st st2 : Store × Bool)
    (h : runFreqs polyfit stepv secs goodsats fs st = Except.ok st2)
    (h0 : P st.1) : P st2.1 := by
  induction fs generalizing st with
  | nil =>
    unfold runFreqs at h
    injection h with h
    rw [← h]
    exact h0
  | cons f fs ih =>
    unfold runFreqs at h
    cases hrs : runSats polyfit stepv secs f goodsats st with
    | error e => rw [hrs] at h; cases h
    | ok stm =>
      rw [hrs] at h
      exact ih _ h (runSats_pres polyfit stepv secs P hP f goodsats _ _ hrs h0)

theorem dopest_pres (polyfit : List Rat → List Rat → Nat → List Rat)
    (rnxdata : Store) (goodsats : List Nat) (stepv : Int) (secs : Rat)
    (freqnum : Nat) (P : Store → Prop)
    (hP : ∀ f p st t st2, epochStep polyfit stepv secs f p st t = Except.ok st2 →
      P st.out → P st2.out)
    (out : Store)
    (h : dopest polyfit rnxdata goodsats stepv secs freqnum = Except.ok out)
    (h0 : P rnxdata) : P out := by
  unfold dopest at h
  cases hrf : runFreqs polyfit stepv secs goodsats
      ((List.range freqnum).map (· + 1)) (rnxdata, false) with
  | error e => rw [hrf] at h; cases h
  | ok r =>
    rw [hrf] at h
    injection h with h
    rw [← h]
    exact runFreqs_pres polyfit stepv secs P hP goodsats _ _ _ hrf h0

theorem mem_fst_of_lookupA {α β : Type} [DecidableEq α] (l : List (α × β))
    (a : α) (b : β) (h : lookupA l a = some b) : a ∈ l.map Prod.fst := by
  induction l with
  | nil => cases h
  | cons hd tl ih =>
    obtain ⟨a0, b0⟩ := hd
    by_cases h0 : a0 = a
    · subst h0
      exact List.mem_cons_self _ _
    · unfold lookupA at h
      rw [if_neg h0] at h
      exact List.mem_cons_of_mem _ (ih h)

/-- During one satellite pass, visiting an epoch whose upstream flag is
`solo`/`slip` leaves the band-`f` Doppler key of that record present in
every later state of the pass. -/
theorem runEpochs_solo_writes (polyfit : List Rat → List Rat → Nat → List Rat)
    (stepv : Int) (secs : Rat) (f p : Nat) (rnx : Store) (t : Int)
    (r : Record) (ts : List Int) (st st2 : PState)
    (hstrip : stripD st.out = stripD rnx)
    (hmem : t ∈ ts)
    (hr : lookupRec rnx t p = some r)
    (hfl : r.flag = "solo" ∨ r.flag = "slip")
    (h : runEpochs polyfit stepv secs f p ts st = Except.ok st2) :
    (lookupD st2.out t p f).isSome := by
  induction ts generalizing st with
  | nil => cases hmem
  | cons t0 ts ih =>
    unfold runEpochs at h
    cases hes : epochStep polyfit stepv secs f p st t0 with
    | error e => rw [hes] at h; cases h
    | ok stm =>
      rw [hes] at h
      rcases List.mem_cons.mp hmem with heq | hmem2
      · subst heq
        obtain ⟨r', hr', hflag', _, _⟩ := lookupRec_of_stripD_eq hstrip.symm hr
        have hsolo := epochStep_solo polyfit stepv secs f p st t r' hr'
          (by rw [hflag']; exact hfl)
        rw [hsolo] at hes
        injection hes with hes
        have hsome : (lookupD stm.out t p f).isSome := by
          rw [← hes]
          have hrec : hasRec st.out t p = true := by
            unfold hasRec
            rw [hr']
            rfl
          rw [lookupD_storeSetD_self _ _ _ _ _ hrec]
          rfl
        exact runEpochs_pres polyfit stepv secs
          (fun s => (lookupD s t p f).isSome)
          (fun f' p' sa ta sb hb hsa =>
            epochStep_isSomeD polyfit stepv secs f' p' sa ta sb hb _ _ _ hsa)
          f p ts stm st2 h hsome
      · exact ih stm ((epochStep_stripD _ _ _ _ _ _ _ _ hes).trans hstrip) hmem2 h

/-! ### Lock-step simulation of two runs over stores that differ only in
their Doppler entries.  `ParWrites s s2 u u2` says the passage from `s` to
`s2` and from `u` to `u2` performed the same Doppler writes: each slot was
either left alone on both sides or ended equal on both sides. -/

def ParWrites (s s2 u u2 : Store) : Prop :=
  ∀ t p f, (lookupD s2 t p f = lookupD s t p f ∧ lookupD u2 t p f = lookupD u t p f) ∨
    lookupD s2 t p f = lookupD u2 t p f

theorem parWrites_refl (s u : Store) : ParWrites s s u u :=
  fun _ _ _ => Or.inl ⟨rfl, rfl⟩

theorem parWrites_trans {s sm s2 u um u2 : Store}
    (h1 : ParWrites s sm u um) (h2 : ParWrites sm s2 um u2) :
    ParWrites s s2 u u2 := by
  intro t p f
  rcases h1 t p f with ⟨ha1, ha2⟩ | ha
  · rcases h2 t p f with ⟨hb1, hb2⟩ | hb
    · exact Or.inl ⟨hb1.trans ha1, hb2.trans ha2⟩
    · exact Or.inr hb
  · rcases h2 t p f with ⟨hb1, hb2⟩ | hb
    · exact Or.inr (hb1.trans (ha.trans hb2.symm))
    · exact Or.inr hb

theorem lookupD_none_of_not_hasRec (s : Store) (t : Int) (p f : Nat)
    (h : hasRec s t p = false) : lookupD s t p f = none := by
  unfold hasRec at h
  cases hr : lookupRec s t p with
  | none => simp [lookupD, hr]
  | some r => rw [hr] at h; simp at h

theorem parWrites_setD (s u : Store) (t : Int) (p f : Nat) (v : DVal)
    (hrec : hasRec s t p = hasRec u t p) :
    ParWrites s (storeSetD s t p f v) u (storeSetD u t p f v) := by
  intro t' p' f'
  by_cases hk : t' = t ∧ p' = p ∧ f' = f
  · obtain ⟨h1, h2, h3⟩ := hk
    subst h1; subst h2; subst h3
    cases hs : hasRec s t' p' with
    | true =>
      have hu : hasRec u t' p' = true := by rw [← hrec]; exact hs
      exact Or.inr ((lookupD_storeSetD_self _ _ _ _ _ hs).trans
        (lookupD_storeSetD_self _ _ _ _ _ hu).symm)
    | false =>
      have hu : hasRec u t' p' = false := by rw [← hrec]; exact hs
      exact Or.inl
        ⟨(lookupD_storeSetD_absent _ _ _ _ _ hs _).trans
          (lookupD_none_of_not_hasRec _ _ _ _ hs).symm,
         (lookupD_storeSetD_absent _ _ _ _ _ hu _).trans
          (lookupD_none_of_not_hasRec _ _ _ _ hu).symm⟩
  · exact Or.inl ⟨lookupD_storeSetD_ne _ _ _ _ _ _ _ _ hk,
      lookupD_storeSetD_ne _ _ _ _ _ _ _ _ hk⟩

theorem writeBack_par (p f : Nat) (stepv t : Int) (pairs : List (Nat × Rat))
    (s u s2 : Store) (hstrip : stripD s = stripD u)
    (h : writeBack p f stepv t s pairs = some s2) :
    ∃ u2, writeBack p f stepv t u pairs = some u2 ∧ stripD s2 = stripD u2 ∧
      ParWrites s s2 u u2 := by
  induction pairs generalizing s u with
  | nil =>
    unfold writeBack at h
    injection h with h
    subst h
    exact ⟨u, rfl, hstrip, parWrites_refl _ _⟩
  | cons hd rest ih =>
    obtain ⟨k, v⟩ := hd
    unfold writeBack setDChecked at h ⊢
    cases hs : hasRec s (t - (k : Int) * stepv) p with
    | false => rw [hs] at h; simp at h
    | true =>
      rw [hs] at h
      simp only [if_true] at h
      have hu : hasRec u (t - (k : Int) * stepv) p = true := by
        rw [← hasRec_eq_of_stripD_eq hstrip]; exact hs
      rw [hu]
      simp only [if_true]
      have hstrip2 : stripD (storeSetD s (t - (k : Int) * stepv) p f (DVal.num v)) =
          stripD (storeSetD u (t - (k : Int) * stepv) p f (DVal.num v)) := by
        rw [stripD_storeSetD, stripD_storeSetD]; exact hstrip
      obtain ⟨u2, hwb, hstrip3, hpw⟩ := ih _ _ hstrip2 h
      refine ⟨u2, hwb, hstrip3, ?_⟩
      exact parWrites_trans
        (parWrites_setD s u _ _ _ _ ((hasRec_eq_of_stripD_eq hstrip) _ _)) hpw

theorem writeBack_none_par (p f : Nat) (stepv t : Int)
    (pairs : List (Nat × Rat)) (s u : Store) (hstrip : stripD s = stripD u)
    (h : writeBack p f stepv t s pairs = none) :
    writeBack p f stepv t u pairs = none := by
  cases hu : writeBack p f stepv t u pairs with
  | none => rfl
  | some u2 =>
    obtain ⟨s2, hs2, _, _⟩ := writeBack_par p f stepv t pairs u s u2 hstrip.symm hu
    rw [h] at hs2
    cases hs2

theorem lookupRec_none_of_stripD_eq {s u : Store} (h : stripD s = stripD u)
    (t : Int) (p : Nat) (hn : lookupRec s t p = none) :
    lookupRec u t p = none := by
  have h2 := hasRec_eq_of_stripD_eq h t p
  unfold hasRec at h2
  rw [hn] at h2
  cases hu : lookupRec u t p with
  | none => rfl
  | some r => rw [hu] at h2; simp at h2

theorem flagStep_sim (f p : Nat) (t : Int) (s u : Store) (L : List Rat)
    (c : Bool) (hstrip : stripD s = stripD u) :
    (∀ e, flagStep f p ⟨s, L, c⟩ t = Except.error e →
      flagStep f p ⟨u, L, c⟩ t = Except.error e) ∧
    (∀ s2 : PState, flagStep f p ⟨s, L, c⟩ t = Except.ok s2 →
      ∃ u2, flagStep f p ⟨u, L, c⟩ t = Except.ok ⟨u2, s2.L, s2.cond⟩ ∧
        stripD s2.out = stripD u2 ∧ ParWrites s s2.out u u2) := by
  cases hr : lookupRec s t p with
  | none =>
    have hru : lookupRec u t p = none := lookupRec_none_of_stripD_eq hstrip t p hr
    constructor
    · intro e he
      rw [flagStep_none _ _ _ _ hr] at he
      cases he
    · intro s2 hs2
      rw [flagStep_none _ _ _ _ hr] at hs2
      injection hs2 with hs2
      subst hs2
      exact ⟨u, flagStep_none _ _ _ _ hru, hstrip, parWrites_refl _ _⟩
  | some r =>
    obtain ⟨r', hru, hflag, hL, _⟩ := lookupRec_of_stripD_eq hstrip hr
    by_cases hfl : r.flag = "solo" ∨ r.flag = "slip"
    · have hfl' : r'.flag = "solo" ∨ r'.flag = "slip" := by rw [hflag]; exact hfl
      constructor
      · intro e he
        rw [flagStep_solo _ _ _ _ _ hr hfl] at he
        cases he
      · intro s2 hs2
        rw [flagStep_solo _ _ _ _ _ hr hfl] at hs2
        injection hs2 with hs2
        subst hs2
        refine ⟨storeSetD u t p f (DVal.str "NaN"),
          flagStep_solo _ _ _ _ _ hru hfl', ?_, ?_⟩
        · simp only
          rw [stripD_storeSetD, stripD_storeSetD]
          exact hstrip
        · simp only
          exact parWrites_setD s u t p f (DVal.str "NaN")
            (hasRec_eq_of_stripD_eq hstrip t p)
    · have hfl' : ¬(r'.flag = "solo" ∨ r'.flag = "slip") := by
        rw [hflag]; exact hfl
      cases hx : lookupA r.L f with
      | none =>
        have hxu : lookupA r'.L f = none := by rw [hL]; exact hx
        constructor
        · intro e he
          rw [flagStep_missing _ _ _ _ _ hr hfl hx] at he
          injection he with he
          subst he
          exact flagStep_missing _ _ _ _ _ hru hfl' hxu
        · intro s2 hs2
          rw [flagStep_missing _ _ _ _ _ hr hfl hx] at hs2
          cases hs2
      | some x =>
        have hxu : lookupA r'.L f = some x := by rw [hL]; exact hx
        constructor
        · intro e he
          rw [flagStep_obs _ _ _ _ _ _ hr hfl hx] at he
          cases he
        · intro s2 hs2
          rw [flagStep_obs _ _ _ _ _ _ hr hfl hx] at hs2
          injection hs2 with hs2
          subst hs2
          refine ⟨u, ?_, hstrip, parWrites_refl _ _⟩
          rw [flagStep_obs _ _ _ _ _ _ hru hfl' hxu, hflag]

theorem arcEstimate_sim (polyfit : List Rat → List Rat → Nat → List Rat)
    (stepv : Int) (secs : Rat) (f p : Nat) (t : Int) (s u : Store)
    (L : List Rat) (c : Bool) (s2 : PState)
    (hstrip : stripD s = stripD u)
    (h : arcEstimate polyfit stepv secs f p t ⟨s, L, c⟩ = Except.ok s2) :
    ∃ u2, arcEstimate polyfit stepv secs f p t ⟨u, L, c⟩ =
        Except.ok ⟨u2, s2.L, s2.cond⟩ ∧
      stripD s2.out = stripD u2 ∧ ParWrites s s2.out u u2 := by
  have harcS : arcEstimate polyfit stepv secs f p t ⟨s, L, c⟩ =
      (match writeBack p f stepv t s
          ((List.range L.length).reverse.zip
            (L.enum.map (fun iv =>
              (iv.2 - polyval (polyfit ((List.range L.length).map (fun i => (i : Rat))) L 19)
                ((iv.1 : Rat) + 1 / 100)) / (1 / 100 * secs)))) with
        | some o => Except.ok (⟨o, [], false⟩ : PState)
        | none => Except.error Err.keyError) := rfl
  have harcU : arcEstimate polyfit stepv secs f p t ⟨u, L, c⟩ =
      (match writeBack p f stepv t u
          ((List.range L.length).reverse.zip
            (L.enum.map (fun iv =>
              (iv.2 - polyval (polyfit ((List.range L.length).map (fun i => (i : Rat))) L 19)
                ((iv.1 : Rat) + 1 / 100)) / (1 / 100 * secs)))) with
        | some o => Except.ok (⟨o, [], false⟩ : PState)
        | none => Except.error Err.keyError) := rfl
  rw [harcS] at h
  cases hwb : writeBack p f stepv t s
      ((List.range L.length).reverse.zip
        (L.enum.map (fun iv =>
          (iv.2 - polyval (polyfit ((List.range L.length).map (fun i => (i : Rat))) L 19)
            ((iv.1 : Rat) + 1 / 100)) / (1 / 100 * secs)))) with
  | none => rw [hwb] at h; cases h
  | some o =>
    rw [hwb] at h
    injection h with h
    subst h
    obtain ⟨u2, hwbu, hstrip2, hpw⟩ := writeBack_par _ _ _ _ _ _ _ _ hstrip hwb
    refine ⟨u2, ?_, hstrip2, hpw⟩
    rw [harcU, hwbu]

theorem epochStep_sim (polyfit : List Rat → List Rat → Nat → List Rat)
    (stepv : Int) (secs : Rat) (f p : Nat) (t : Int) (s u : Store)
    (L : List Rat) (c : Bool) (s2 : PState)
    (hstrip : stripD s = stripD u)
    (h : epochStep polyfit stepv secs f p ⟨s, L, c⟩ t = Except.ok s2) :
    ∃ u2, epochStep polyfit stepv secs f p ⟨u, L, c⟩ t =
        Except.ok ⟨u2, s2.L, s2.cond⟩ ∧
      stripD s2.out = stripD u2 ∧ ParWrites s s2.out u u2 := by
  unfold epochStep at h ⊢
  cases hfs : flagStep f p ⟨s, L, c⟩ t with
  | error e => rw [hfs] at h; cases h
  | ok s1 =>
    rw [hfs] at h
    simp only at h
    obtain ⟨u1, hfsu, hstrip1, hpw1⟩ := (flagStep_sim f p t s u L c hstrip).2 s1 hfs
    rw [hfsu]
    simp only
    by_cases hc : s1.cond = true
    · rw [if_pos hc] at h ⊢
      have h1 : arcEstimate polyfit stepv secs f p t ⟨s1.out, s1.L, s1.cond⟩ =
          Except.ok s2 := h
      obtain ⟨u2, hareu, hstrip2, hpw2⟩ :=
        arcEstimate_sim polyfit stepv secs f p t s1.out u1 s1.L s1.cond s2
          hstrip1 h1
      exact ⟨u2, hareu, hstrip2, parWrites_trans hpw1 hpw2⟩
    · rw [if_neg hc] at h ⊢
      injection h with h
      subst h
      exact ⟨u1, rfl, hstrip1, hpw1⟩

theorem runEpochs_sim (polyfit : List Rat → List Rat → Nat → List Rat)
    (stepv : Int) (secs : Rat) (f p : Nat) (ts : List Int) (s u : Store)
    (L : List Rat) (c : Bool) (s2 : PState)
    (hstrip : stripD s = stripD u)
    (h : runEpochs polyfit stepv secs f p ts ⟨s, L, c⟩ = Except.ok s2) :
    ∃ u2, runEpochs polyfit stepv secs f p ts ⟨u, L, c⟩ =
        Except.ok ⟨u2, s2.L, s2.cond⟩ ∧
      stripD s2.out = stripD u2 ∧ ParWrites s s2.out u u2 := by
  induction ts generalizing s u L c with
  | nil =>
    unfold runEpochs at h
    injection h with h
    subst h
    exact ⟨u, rfl, hstrip, parWrites_refl _ _⟩
  | cons t ts ih =>
    unfold runEpochs at h ⊢
    cases hes : epochStep polyfit stepv secs f p ⟨s, L, c⟩ t with
    | error e => rw [hes] at h; cases h
    | ok sm =>
      rw [hes] at h
      obtain ⟨u1, hesu, hstrip1, hpw1⟩ :=
        epochStep_sim polyfit stepv secs f p t s u L c sm hstrip hes
      rw [hesu]
      have hm : runEpochs polyfit stepv secs f p ts ⟨sm.out, sm.L, sm.cond⟩ =
          Except.ok s2 := h
      obtain ⟨u2, hrun, hstrip2, hpw2⟩ := ih _ _ _ _ hstrip1 hm
      exact ⟨u2, hrun, hstrip2, parWrites_trans hpw1 hpw2⟩

theorem runSat_sim (polyfit : List Rat → List Rat → Nat → List Rat)
    (stepv : Int) (secs : Rat) (f p : Nat) (s u : Store) (c : Bool)
    (s2 : Store × Bool) (hstrip : stripD s = stripD u)
    (h : runSat polyfit stepv secs f p (s, c) = Except.ok s2) :
    ∃ u2, runSat polyfit stepv secs f p (u, c) = Except.ok (u2, s2.2) ∧
      stripD s2.1 = stripD u2 ∧ ParWrites s s2.1 u u2 := by
  unfold runSat at h ⊢
  cases hre : runEpochs polyfit stepv secs f p (s.map Prod.fst) ⟨s, [], c⟩ with
  | error e => rw [hre] at h; cases h
  | ok r =>
    rw [hre] at h
    injection h with h
    subst h
    obtain ⟨u2, hrun, hstrip2, hpw⟩ :=
      runEpochs_sim polyfit stepv secs f p (s.map Prod.fst) s u [] c r hstrip hre
    rw [map_fst_eq_of_stripD_eq hstrip] at hrun
    rw [hrun]
    exact ⟨u2, rfl, hstrip2, hpw⟩

theorem runSats_sim (polyfit : List Rat → List Rat → Nat → List Rat)
    (stepv : Int) (secs : Rat) (f : Nat) (ps : List Nat) (s u : Store)
    (c : Bool) (s2 : Store × Bool) (hstrip : stripD s = stripD u)
    (h : runSats polyfit stepv secs f ps (s, c) = Except.ok s2) :
    ∃ u2, runSats polyfit stepv secs f ps (u, c) = Except.ok (u2, s2.2) ∧
      stripD s2.1 = stripD u2 ∧ ParWrites s s2.1 u u2 := by
  induction ps generalizing s u c with
  | nil =>
    unfold runSats at h
    injection h with h
    subst h
    exact ⟨u, rfl, hstrip, parWrites_refl _ _⟩
  | cons p ps ih =>
    unfold runSats at h ⊢
    cases hrs : runSat polyfit stepv secs f p (s, c) with
    | error e => rw [hrs] at h; cases h
    | ok sm =>
      rw [hrs] at h
      obtain ⟨u1, hrsu, hstrip1, hpw1⟩ :=
        runSat_sim polyfit stepv secs f p s u c sm hstrip hrs
      rw [hrsu]
      have hm : runSats polyfit stepv secs f ps (sm.1, sm.2) = Except.ok s2 := h
      obtain ⟨u2, hrun, hstrip2, hpw2⟩ := ih _ _ _ hstrip1 hm
      exact ⟨u2, hrun, hstrip2, parWrites_trans hpw1 hpw2⟩

theorem runFreqs_sim (polyfit : List Rat → List Rat → Nat → List Rat)
    (stepv : Int) (secs : Rat) (goodsats : List Nat) (fs : List Nat)
    (s u : Store) (c : Bool) (s2 : Store × Bool)
    (hstrip : stripD s = stripD u)
    (h : runFreqs polyfit stepv secs goodsats fs (s, c) = Except.ok s2) :
    ∃ u2, runFreqs polyfit stepv secs goodsats fs (u, c) = Except.ok (u2, s2.2) ∧
      stripD s2.1 = stripD u2 ∧ ParWrites s s2.1 u u2 := by
  induction fs generalizing s u c with
  | nil =>
    unfold runFreqs at h
    injection h with h
    subst h
    exact ⟨u, rfl, hstrip, parWrites_refl _ _⟩
  | cons f fs ih =>
    unfold runFreqs at h ⊢
    cases hrs : runSats polyfit stepv secs f goodsats (s, c) with
    | error e => rw [hrs] at h; cases h
    | ok sm =>
      rw [hrs] at h
      obtain ⟨u1, hrsu, hstrip1, hpw1⟩ :=
        runSats_sim polyfit stepv secs f goodsats s u c sm hstrip hrs
      rw [hrsu]
      have hm : runFreqs polyfit stepv secs goodsats fs (sm.1, sm.2) =
          Except.ok s2 := h
      obtain ⟨u2, hrun, hstrip2, hpw2⟩ := ih _ _ _ hstrip1 hm
      exact ⟨u2, hrun, hstrip2, parWrites_trans hpw1 hpw2⟩

theorem dopest_sim (polyfit : List Rat → List Rat → Nat → List Rat)
    (rnxdata u : Store) (goodsats : List Nat) (stepv : Int) (secs : Rat)
    (freqnum : Nat) (out : Store) (hstrip : stripD rnxdata = stripD u)
    (h : dopest polyfit rnxdata goodsats stepv secs freqnum = Except.ok out) :
    ∃ out2, dopest polyfit u goodsats stepv secs freqnum = Except.ok out2 ∧
      stripD out = stripD out2 ∧ ParWrites rnxdata out u out2 := by
  unfold dopest at h ⊢
  cases hrf : runFreqs polyfit stepv secs goodsats
      ((List.range freqnum).map (· + 1)) (rnxdata, false) with
  | error e => rw [hrf] at h; cases h
  | ok r =>
    rw [hrf] at h
    injection h with h
    subst h
    obtain ⟨u2, hrun, hstrip2, hpw⟩ :=
      runFreqs_sim polyfit stepv secs goodsats _ rnxdata u false r hstrip hrf
    rw [hrun]
    exact ⟨u2, rfl, hstrip2, hpw⟩

/-- The write-back loop of an arc with value list `D` (paired with the
descending counters `n-1, ..., 0`) succeeds exactly when satellite `p` has a
record at every arithmetic target epoch `t - k*stepv`, `k < n`. -/
theorem writeBack_isSome_iff_lt (p f : Nat) (stepv t : Int) (s : Store)
    (n : Nat) (D : List Rat) (hD : D.length = n) :
    (writeBack p f stepv t s ((List.range n).reverse.zip D)).isSome = true ↔
      ∀ k, k < n → hasRec s (t - (k : Int) * stepv) p = true := by
  subst hD
  rw [writeBack_isSome_iff]
  constructor
  · intro hall k hk
    have hplen : D.length - 1 - k < ((List.range D.length).reverse.zip D).length := by
      rw [List.length_zip]
      simp only [List.length_reverse, List.length_range]
      omega
    have hri : D.length - 1 - k < (List.range D.length).reverse.length := by
      simp only [List.length_reverse, List.length_range]
      omega
    have hdi : D.length - 1 - k < D.length := by omega
    have hget : ((List.range D.length).reverse.zip D)[D.length - 1 - k] =
        (k, D[D.length - 1 - k]) := by
      rw [List.getElem_zip]
      congr 1
      rw [List.getElem_reverse, List.getElem_range]
      simp only [List.length_range]
      omega
    have hmem : (k, D[D.length - 1 - k]) ∈ (List.range D.length).reverse.zip D := by
      rw [← hget]
      exact List.getElem_mem hplen
    exact hall k _ hmem
  · intro hall k v hm
    have h1 := (List.of_mem_zip hm).1
    rw [List.mem_reverse, List.mem_range] at h1
    exact hall k h1

/-! ### Concrete material for witnesses and counterexamples -/

/-- A concrete stand-in for the abstract least-squares fit: the zero
polynomial (the engine's control flow never depends on the fitted
coefficients, only the written rate values do). -/
def fitZero : List Rat → List Rat → Nat → List Rat := fun _ _ _ => []

/-- A one-band observation record with the given flag and `L1` value. -/
def mkRec (fl : String) (x : Rat) : Record := ⟨fl, [(1, x)], [], []⟩

/-- Successful-completion test of a run result. -/
def isOkRes : Except Err Store → Bool
  | Except.ok _ => true
  | Except.error _ => false

/-- The Doppler entry of a run result; `none` on an aborted run. -/
def resD : Except Err Store → Int → Nat → Nat → Option DVal
  | Except.ok s, t, p, f => lookupD s t p f
  | Except.error _, _, _, _ => none

/-- `start`@0, `slip`@1, `end`@2 with step 1: the arc completed at epoch 2
has buffer `[10, 20]`, so its write-back window covers the `slip` epoch 1. -/
def slipStore : Store :=
  [(0, [(1, mkRec "start" 10)]), (1, [(1, mkRec "slip" 5)]),
   (2, [(1, mkRec "end" 20)])]

/-- A single visited epoch flagged `none`: an arc that never completes. -/
def noneStore : Store := [(0, [(1, mkRec "none" 3)])]

/-- A well-formed three-epoch arc `start`/`none`/`end` with step 1. -/
def arcStore : Store :=
  [(0, [(1, mkRec "start" 10)]), (1, [(1, mkRec "none" 11)]),
   (2, [(1, mkRec "end" 12)])]

/-- The output of a successful run on `arcStore`. -/
def arcOut : Store :=
  match dopest fitZero arcStore [1] 1 1 1 with
  | Except.ok s => s
  | Except.error _ => []

/-- A single `end`-flagged epoch: a degenerate arc of length 1. -/
def endStore : Store := [(0, [(1, mkRec "end" 7)])]

/-- A record whose carrier phase for band 1 is missing, flagged `none`. -/
def missStore : Store := [(0, [(1, (⟨"none", [], [], []⟩ : Record))])]

/-- A single `solo`-flagged epoch. -/
def soloStore : Store := [(0, [(1, mkRec "solo" 4)])]

/-- The output of a successful run on `soloStore`. -/
def soloOut : Store :=
  match dopest fitZero soloStore [1] 1 1 1 with
  | Except.ok s => s
  | Except.error _ => []

/-- A two-epoch arc `start`@0, `end`@1 with step 1. -/
def arc2Store : Store :=
  [(0, [(1, mkRec "start" 10)]), (1, [(1, mkRec "end" 20)])]

/-- An arc whose `end` epoch 5 is not one step after its `start` epoch 0:
the write-back target epoch 4 has no record. -/
def gapStore : Store :=
  [(0, [(1, mkRec "start" 10)]), (5, [(1, mkRec "end" 20)])]

theorem lookupA_mem {α β : Type} [DecidableEq α] (l : List (α × β)) (a : α)
    (b : β) (h : lookupA l a = some b) : (a, b) ∈ l := by
  induction l with
  | nil => cases h
  | cons hd tl ih =>
    obtain ⟨a0, b0⟩ := hd
    unfold lookupA at h
    by_cases h0 : a0 = a
    · subst h0
      rw [if_pos rfl] at h
      injection h with h
      subst h
      exact List.mem_cons_self _ _
    · rw [if_neg h0] at h
      exact List.mem_cons_of_mem _ (ih h)

/-- In a store whose records all have an empty Doppler dictionary — the
input of the pipeline, where missing Doppler is what triggers `dopest` —
every Doppler lookup is `none`. -/
theorem lookupD_of_all_empty (s : Store)
    (hA : ∀ em, em ∈ s → ∀ pr, pr ∈ em.2 → pr.2.D = ([] : List (Nat × DVal)))
    (t : Int) (p f : Nat) : lookupD s t p f = none := by
  cases hR : lookupRec s t p with
  | none =>
    unfold lookupD
    rw [hR]
  | some r =>
    unfold lookupRec at hR
    cases hE : lookupA s t with
    | none => rw [hE] at hR; cases hR
    | some m =>
      rw [hE] at hR
      have hmem1 := lookupA_mem _ _ _ hE
      have hmem2 := lookupA_mem _ _ _ hR
      have hD : r.D = ([] : List (Nat × DVal)) := hA _ hmem1 _ hmem2
      unfold lookupD
      rw [show lookupRec s t p = some r from by unfold lookupRec; rw [hE]; exact hR]
      show lookupA r.D f = none
      rw [hD]
      rfl

/-! ### The claims -/

/-- C1: for every completed arc buffer of length `n ≥ 1` (the state reached
when an `end`-flagged record with a present band-`f` phase is dispatched),
the engine fits one degree-19 polynomial to the pairs `(i, phase i)` for
`i = 0..n-1` — the coefficient vector `polyfit [0..n-1] phases 19` — and the
rate written for buffer index `i` equals
`(phase i - fitted (i + 0.01)) / (0.01 * step_seconds)`. -/
theorem claim1_arc_rate_values (polyfit : List Rat → List Rat → Nat → List Rat)
    (stepv : Int) (secs : Rat) (f p : Nat) (st : PState) (t : Int)
    (r : Record) (x : Rat)
    (hr : lookupRec st.out t p = some r) (hflag : r.flag = "end")
    (hx : lookupA r.L f = some x) (hstep : stepv ≠ 0)
    (hall : ∀ k, k < (st.L ++ [x]).length →
      hasRec st.out (t - (k : Int) * stepv) p = true) :
    ∃ out2, epochStep polyfit stepv secs f p st t = Except.ok ⟨out2, [], false⟩ ∧
      ∀ i, (hi : i < (st.L ++ [x]).length) →
        lookupD out2 (t - (((st.L ++ [x]).length - 1 - i : Nat) : Int) * stepv) p f =
          some (DVal.num (((st.L ++ [x]).get ⟨i, hi⟩ -
            polyval (polyfit ((List.range (st.L ++ [x]).length).map (fun j => (j : Rat)))
              (st.L ++ [x]) 19) ((i : Rat) + 1 / 100)) / (1 / 100 * secs))) := by
  rw [epochStep_end polyfit stepv secs f p st t r x hr hflag hx]
  obtain ⟨out2, hok, hwr, _⟩ :=
    arcEstimate_spec polyfit stepv secs f p t ⟨st.out, st.L ++ [x], true⟩ hstep hall
  exact ⟨out2, hok, hwr⟩

/-- C2: an arc completed at end-epoch `t` with buffer length `n` produces
exactly `n` rate values: buffer entry `k` (0 = oldest) lands at the record
of satellite `p` at absolute epoch `t - (n-1-k) * step` (in particular the
newest entry, `k = n-1`, lands at `t` itself), and no other Doppler entry of
the store changes. -/
theorem claim2_writeback_alignment (polyfit : List Rat → List Rat → Nat → List Rat)
    (stepv : Int) (secs : Rat) (f p : Nat) (st : PState) (t : Int)
    (r : Record) (x : Rat)
    (hr : lookupRec st.out t p = some r) (hflag : r.flag = "end")
    (hx : lookupA r.L f = some x) (hstep : stepv ≠ 0)
    (hall : ∀ k, k < (st.L ++ [x]).length →
      hasRec st.out (t - (k : Int) * stepv) p = true) :
    ∃ out2, epochStep polyfit stepv secs f p st t = Except.ok ⟨out2, [], false⟩ ∧
      (∀ k, k < (st.L ++ [x]).length →
        ∃ q, lookupD out2 (t - (((st.L ++ [x]).length - 1 - k : Nat) : Int) * stepv) p f =
          some (DVal.num q)) ∧
      (∀ t2 p2 f2,
        (p2 ≠ p ∨ f2 ≠ f ∨ ∀ k, k < (st.L ++ [x]).length → t2 ≠ t - (k : Int) * stepv) →
        lookupD out2 t2 p2 f2 = lookupD st.out t2 p2 f2) := by
  rw [epochStep_end polyfit stepv secs f p st t r x hr hflag hx]
  obtain ⟨out2, hok, hwr, hfr⟩ :=
    arcEstimate_spec polyfit stepv secs f p t ⟨st.out, st.L ++ [x], true⟩ hstep hall
  exact ⟨out2, hok, fun k hk => ⟨_, hwr k hk⟩, hfr⟩

/-- C6: the engine only ever sets Doppler entries of its output copy: the
output has exactly the input's epochs and satellite records, and every
record keeps its continuity flag, its carrier phases and all its other
observables (the input itself is a pure value and is never mutated). -/
theorem claim6_frame (polyfit : List Rat → List Rat → Nat → List Rat)
    (rnxdata : Store) (goodsats : List Nat) (stepv : Int) (secs : Rat)
    (freqnum : Nat) (out : Store)
    (h : dopest polyfit rnxdata goodsats stepv secs freqnum = Except.ok out) :
    stripD out = stripD rnxdata ∧
    out.map Prod.fst = rnxdata.map Prod.fst ∧
    (∀ t p, (lookupRec out t p).isSome = (lookupRec rnxdata t p).isSome) ∧
    (∀ t p r, lookupRec rnxdata t p = some r →
      ∃ r2, lookupRec out t p = some r2 ∧ r2.flag = r.flag ∧ r2.L = r.L ∧
        r2.other = r.other) := by
  have hstrip : stripD out = stripD rnxdata :=
    dopest_pres polyfit rnxdata goodsats stepv secs freqnum
      (fun s => stripD s = stripD rnxdata)
      (fun f p sa ta sb hb hsa => (epochStep_stripD _ _ _ _ _ _ _ _ hb).trans hsa)
      out h rfl
  refine ⟨hstrip, map_fst_eq_of_stripD_eq hstrip, ?_, ?_⟩
  · intro t p
    exact hasRec_eq_of_stripD_eq hstrip t p
  · intro t p r hr
    exact lookupRec_of_stripD_eq hstrip.symm hr

/-- C7: the engine is idempotent on its own successful output: running it
again on the returned store succeeds and reproduces identical rate entries
at every epoch, satellite and band. -/
theorem claim7_idempotent (polyfit : List Rat → List Rat → Nat → List Rat)
    (rnxdata : Store) (goodsats : List Nat) (stepv : Int) (secs : Rat)
    (freqnum : Nat) (out : Store)
    (h : dopest polyfit rnxdata goodsats stepv secs freqnum = Except.ok out) :
    ∃ out2, dopest polyfit out goodsats stepv secs freqnum = Except.ok out2 ∧
      ∀ t p f, lookupD out2 t p f = lookupD out t p f := by
  have hstrip : stripD out = stripD rnxdata :=
    dopest_pres polyfit rnxdata goodsats stepv secs freqnum
      (fun s => stripD s = stripD rnxdata)
      (fun f p sa ta sb hb hsa => (epochStep_stripD _ _ _ _ _ _ _ _ hb).trans hsa)
      out h rfl
  obtain ⟨out2, h2, _, hpw⟩ :=
    dopest_sim polyfit rnxdata out goodsats stepv secs freqnum out hstrip.symm h
  refine ⟨out2, h2, ?_⟩
  intro t p f
  rcases hpw t p f with ⟨_, hb⟩ | hb
  · exact hb
  · exact hb.symm

/-- C10: the invalid-value sentinel is the string `'NaN'` while estimated
rates are numbers, so (provided the input's Doppler entries, if any, already
have one of these two shapes — in the pipeline they are absent) every
Doppler entry of the output is either the string `'NaN'` or a number, and
the two shapes are distinguishable by type. -/
theorem claim10_sentinel_type (polyfit : List Rat → List Rat → Nat → List Rat)
    (rnxdata : Store) (goodsats : List Nat) (stepv : Int) (secs : Rat)
    (freqnum : Nat) (out : Store)
    (h : dopest polyfit rnxdata goodsats stepv secs freqnum = Except.ok out)
    (h0 : ∀ t p f v, lookupD rnxdata t p f = some v →
      v = DVal.str "NaN" ∨ ∃ q, v = DVal.num q) :
    (∀ t p f v, lookupD out t p f = some v →
      v = DVal.str "NaN" ∨ ∃ q, v = DVal.num q) ∧
    (∀ q, DVal.str "NaN" ≠ DVal.num q) := by
  constructor
  · refine dopest_pres polyfit rnxdata goodsats stepv secs freqnum
      (fun s => ∀ t p f v, lookupD s t p f = some v →
        v = DVal.str "NaN" ∨ ∃ q, v = DVal.num q)
      ?_ out h h0
    intro f p sa ta sb hb hsa t p2 f2 v hv
    rcases epochStep_vals _ _ _ _ _ _ _ _ hb _ _ _ _ hv with h1 | h1 | h1
    · exact hsa _ _ _ _ h1
    · exact Or.inl h1
    · exact Or.inr h1
  · intro q hq
    cases hq

/-- C3 (amended): when the engine visits an epoch whose flag is `solo` or
`slip` for band `f`, it writes the string sentinel `'NaN'` into that
record's rate field, clears the arc-ready condition, and leaves the phase
buffer untouched — a `solo`/`slip` epoch never contributes a phase value.
The final-output form of the claim is false (see the counterexample): a
later completed arc whose arithmetic write-back window covers the epoch
overwrites the sentinel with a number. -/
theorem claim3_solo_slip_visit (polyfit : List Rat → List Rat → Nat → List Rat)
    (stepv : Int) (secs : Rat) (f p : Nat) (st : PState) (t : Int)
    (r : Record) (hr : lookupRec st.out t p = some r)
    (hfl : r.flag = "solo" ∨ r.flag = "slip") :
    epochStep polyfit stepv secs f p st t =
      Except.ok ⟨storeSetD st.out t p f (DVal.str "NaN"), st.L, false⟩ ∧
    lookupD (storeSetD st.out t p f (DVal.str "NaN")) t p f =
      some (DVal.str "NaN") := by
  refine ⟨epochStep_solo polyfit stepv secs f p st t r hr hfl, ?_⟩
  refine lookupD_storeSetD_self _ _ _ _ _ ?_
  unfold hasRec
  rw [hr]
  rfl

/-- C3 is false as stated: in the store with flags `start`@0, `slip`@1,
`end`@2 (step 1), the run succeeds and the `slip` epoch 1 ends with a
numeric rate, not the `'NaN'` sentinel — the arc completed at epoch 2 has
buffer length 2 and its write-back window covers epoch 1. -/
theorem claim3_counterexample :
    (lookupRec slipStore 1 1).map Record.flag = some "slip" ∧
    isOkRes (dopest fitZero slipStore [1] 1 1 1) = true ∧
    resD (dopest fitZero slipStore [1] 1 1 1) 1 1 1 ≠ some (DVal.str "NaN") ∧
    (resD (dopest fitZero slipStore [1] 1 1 1) 1 1 1).isSome = true := by
  refine ⟨rfl, rfl, ?_, rfl⟩
  decide

/-- C8: a degenerate arc of buffer length 1 (an `end`-flagged record reached
with an empty buffer) is fitted and differentiated without any abnormal
exit: the epoch body returns successfully having written exactly one
numeric rate value, at the current epoch itself. -/
theorem claim8_degenerate_arc (polyfit : List Rat → List Rat → Nat → List Rat)
    (stepv : Int) (secs : Rat) (f p : Nat) (st : PState) (t : Int)
    (r : Record) (x : Rat)
    (hr : lookupRec st.out t p = some r) (hflag : r.flag = "end")
    (hx : lookupA r.L f = some x) (hL : st.L = []) :
    epochStep polyfit stepv secs f p st t =
      Except.ok ⟨storeSetD st.out t p f (DVal.num
        ((x - polyval (polyfit [(0 : Rat)] [x] 19) (1 / 100)) / (1 / 100 * secs))),
        [], false⟩ := by
  rw [epochStep_end polyfit stepv secs f p st t r x hr hflag hx, hL]
  have hrec : hasRec st.out t p = true := by
    unfold hasRec
    rw [hr]
    rfl
  show arcEstimate polyfit stepv secs f p t ⟨st.out, [x], true⟩ = _
  have harc1 : arcEstimate polyfit stepv secs f p t ⟨st.out, [x], true⟩ =
      (match writeBack p f stepv t st.out
          [(0, (x - polyval (polyfit ((List.range 1).map (fun i => (i : Rat))) [x] 19)
            (((0 : Nat) : Rat) + 1 / 100)) / (1 / 100 * secs))] with
        | some o => Except.ok (⟨o, [], false⟩ : PState)
        | none => Except.error Err.keyError) := rfl
  rw [harc1]
  have hrec0 : hasRec st.out (t - ((0 : Nat) : Int) * stepv) p = true := by
    rw [Nat.cast_zero, zero_mul, sub_zero]
    exact hrec
  have hwb : writeBack p f stepv t st.out
      [(0, (x - polyval (polyfit ((List.range 1).map (fun i => (i : Rat))) [x] 19)
        (((0 : Nat) : Rat) + 1 / 100)) / (1 / 100 * secs))] =
      some (storeSetD st.out (t - ((0 : Nat) : Int) * stepv) p f (DVal.num
        ((x - polyval (polyfit ((List.range 1).map (fun i => (i : Rat))) [x] 19)
          (((0 : Nat) : Rat) + 1 / 100)) / (1 / 100 * secs)))) := by
    unfold writeBack setDChecked
    rw [hrec0]
    rfl
  rw [hwb]
  rw [Nat.cast_zero, zero_mul, sub_zero]
  have h1 : (List.range 1).map (fun i => (i : Rat)) = [(0 : Rat)] := by
    decide
  have h2 : ((0 : Nat) : Rat) + 1 / 100 = 1 / 100 := by
    rw [Nat.cast_zero, zero_add]
  rw [h1, h2]

/-- C9: for a completed arc of buffer length `n` ending at epoch `t`, the
write-back raises (the modelled `KeyError`) exactly when the precondition
fails that satellite `p` has a stored record at every arithmetically
computed epoch `t - k*step`, `k = 0..n-1`; under the precondition the only
reachable abnormal exit of the dispatch is the distinguished `False`
return, which an `end`-flagged epoch with a present phase never takes. -/
theorem claim9_writeback_guard (polyfit : List Rat → List Rat → Nat → List Rat)
    (stepv : Int) (secs : Rat) (f p : Nat) (st : PState) (t : Int)
    (r : Record) (x : Rat)
    (hr : lookupRec st.out t p = some r) (hflag : r.flag = "end")
    (hx : lookupA r.L f = some x) :
    epochStep polyfit stepv secs f p st t = Except.error Err.keyError ↔
      ¬(∀ k, k < (st.L ++ [x]).length →
        hasRec st.out (t - (k : Int) * stepv) p = true) := by
  rw [epochStep_end polyfit stepv secs f p st t r x hr hflag hx]
  have harc : arcEstimate polyfit stepv secs f p t ⟨st.out, st.L ++ [x], true⟩ =
      (match writeBack p f stepv t st.out
          ((List.range (st.L ++ [x]).length).reverse.zip
            ((st.L ++ [x]).enum.map (fun iv =>
              (iv.2 - polyval (polyfit ((List.range (st.L ++ [x]).length).map
                (fun i => (i : Rat))) (st.L ++ [x]) 19)
                ((iv.1 : Rat) + 1 / 100)) / (1 / 100 * secs)))) with
        | some o => Except.ok (⟨o, [], false⟩ : PState)
        | none => Except.error Err.keyError) := rfl
  rw [harc]
  have hiff := writeBack_isSome_iff_lt p f stepv t st.out (st.L ++ [x]).length
    ((st.L ++ [x]).enum.map (fun iv =>
      (iv.2 - polyval (polyfit ((List.range (st.L ++ [x]).length).map
        (fun i => (i : Rat))) (st.L ++ [x]) 19)
        ((iv.1 : Rat) + 1 / 100)) / (1 / 100 * secs))) (by simp)
  cases hwb : writeBack p f stepv t st.out
      ((List.range (st.L ++ [x]).length).reverse.zip
        ((st.L ++ [x]).enum.map (fun iv =>
          (iv.2 - polyval (polyfit ((List.range (st.L ++ [x]).length).map
            (fun i => (i : Rat))) (st.L ++ [x]) 19)
            ((iv.1 : Rat) + 1 / 100)) / (1 / 100 * secs)))) with
  | none =>
    rw [hwb] at hiff
    refine iff_of_true rfl ?_
    intro hall
    have hcon := hiff.mpr hall
    simp at hcon
  | some o =>
    rw [hwb] at hiff
    have hall := hiff.mp rfl
    refine iff_of_false ?_ ?_
    · intro hcon
      cases hcon
    · intro hcon
      exact hcon hall

/-- C4: a record reached with a non-`solo`/`slip` flag but no band-`f`
carrier phase aborts the whole run with the distinguished `False` return.
The hypotheses state that the run reached that record — every earlier band,
satellite and epoch succeeded — so this is the first violation in
frequency-major, satellite-major, time-minor order.  No store is returned,
and the input (a pure value, deep-copied at line 77) is unchanged. -/
theorem claim4_missing_phase_aborts (polyfit : List Rat → List Rat → Nat → List Rat)
    (rnxdata : Store) (goodsats : List Nat) (stepv : Int) (secs : Rat)
    (freqnum : Nat) (fs1 fs2 ps1 ps2 : List Nat) (f p : Nat)
    (m1 m2 : Store × Bool) (ts1 ts2 : List Int) (t : Int) (stm : PState)
    (r : Record)
    (hfs : (List.range freqnum).map (· + 1) = fs1 ++ f :: fs2)
    (hgs : goodsats = ps1 ++ p :: ps2)
    (h1 : runFreqs polyfit stepv secs goodsats fs1 (rnxdata, false) = Except.ok m1)
    (h2 : runSats polyfit stepv secs f ps1 m1 = Except.ok m2)
    (hts : m2.1.map Prod.fst = ts1 ++ t :: ts2)
    (h3 : runEpochs polyfit stepv secs f p ts1 ⟨m2.1, [], m2.2⟩ = Except.ok stm)
    (hr : lookupRec stm.out t p = some r)
    (hfl : ¬(r.flag = "solo" ∨ r.flag = "slip"))
    (hx : lookupA r.L f = none) :
    dopest polyfit rnxdata goodsats stepv secs freqnum =
      Except.error Err.retFalse := by
  have hes : epochStep polyfit stepv secs f p stm t = Except.error Err.retFalse :=
    epochStep_missing polyfit stepv secs f p stm t r hr hfl hx
  have hrE : runEpochs polyfit stepv secs f p (ts1 ++ t :: ts2) ⟨m2.1, [], m2.2⟩ =
      Except.error Err.retFalse := by
    rw [runEpochs_append, h3]
    show runEpochs polyfit stepv secs f p (t :: ts2) stm = _
    unfold runEpochs
    rw [hes]
  have hrS : runSat polyfit stepv secs f p m2 = Except.error Err.retFalse := by
    unfold runSat
    rw [hts, hrE]
  have hrSS : runSats polyfit stepv secs f goodsats m1 =
      Except.error Err.retFalse := by
    rw [hgs, runSats_append, h2]
    show runSats polyfit stepv secs f (p :: ps2) m2 = _
    unfold runSats
    rw [hrS]
  have hrF : runFreqs polyfit stepv secs goodsats
      ((List.range freqnum).map (· + 1)) (rnxdata, false) =
      Except.error Err.retFalse := by
    rw [hfs, runFreqs_append, h1]
    show runFreqs polyfit stepv secs goodsats (f :: fs2) m1 = _
    unfold runFreqs
    rw [hrSS]
  unfold dopest
  rw [hrF]

/-- C5 (amended): on successful completion, every visited record whose flag
is `solo` or `slip` has its band-`f` rate field populated in the output for
every processed band; visited records of arcs that never complete may keep
no rate field at all, so the original "every visited record" form is false
(see the counterexample). -/
theorem claim5_solo_slip_populated (polyfit : List Rat → List Rat → Nat → List Rat)
    (rnxdata : Store) (goodsats : List Nat) (stepv : Int) (secs : Rat)
    (freqnum : Nat) (out : Store) (f p : Nat) (t : Int) (r : Record)
    (h : dopest polyfit rnxdata goodsats stepv secs freqnum = Except.ok out)
    (hf : f ∈ (List.range freqnum).map (· + 1))
    (hp : p ∈ goodsats)
    (hr : lookupRec rnxdata t p = some r)
    (hfl : r.flag = "solo" ∨ r.flag = "slip") :
    (lookupD out t p f).isSome = true := by
  obtain ⟨fs1, fs2, hfs⟩ := List.append_of_mem hf
  obtain ⟨ps1, ps2, hgs⟩ := List.append_of_mem hp
  unfold dopest at h
  cases hrf : runFreqs polyfit stepv secs goodsats
      ((List.range freqnum).map (· + 1)) (rnxdata, false) with
  | error e => rw [hrf] at h; cases h
  | ok fin =>
    rw [hrf] at h
    injection h with h
    rw [hfs, runFreqs_append] at hrf
    cases hm1 : runFreqs polyfit stepv secs goodsats fs1 (rnxdata, false) with
    | error e => rw [hm1] at hrf; cases hrf
    | ok m1 =>
      rw [hm1] at hrf
      have hrf2 : runFreqs polyfit stepv secs goodsats (f :: fs2) m1 =
          Except.ok fin := hrf
      unfold runFreqs at hrf2
      cases hsats : runSats polyfit stepv secs f goodsats m1 with
      | error e => rw [hsats] at hrf2; cases hrf2
      | ok mS =>
        rw [hsats] at hrf2
        rw [hgs, runSats_append] at hsats
        cases hmA : runSats polyfit stepv secs f ps1 m1 with
        | error e => rw [hmA] at hsats; cases hsats
        | ok mA =>
          rw [hmA] at hsats
          have hsats2 : runSats polyfit stepv secs f (p :: ps2) mA =
              Except.ok mS := hsats
          unfold runSats at hsats2
          cases hmB : runSat polyfit stepv secs f p mA with
          | error e => rw [hmB] at hsats2; cases hsats2
          | ok mB =>
            rw [hmB] at hsats2
            have hsats3 : runSats polyfit stepv secs f ps2 mB =
                Except.ok mS := hsats2
            have hstrip1 : stripD m1.1 = stripD rnxdata :=
              runFreqs_pres polyfit stepv secs
                (fun s => stripD s = stripD rnxdata)
                (fun f' p' sa ta sb hb hsa =>
                  (epochStep_stripD _ _ _ _ _ _ _ _ hb).trans hsa)
                goodsats fs1 _ _ hm1 rfl
            have hstripA : stripD mA.1 = stripD rnxdata :=
              runSats_pres polyfit stepv secs
                (fun s => stripD s = stripD rnxdata)
                (fun f' p' sa ta sb hb hsa =>
                  (epochStep_stripD _ _ _ _ _ _ _ _ hb).trans hsa)
                f ps1 _ _ hmA hstrip1
            have htkey : t ∈ mA.1.map Prod.fst := by
              rw [map_fst_eq_of_stripD_eq hstripA]
              unfold lookupRec at hr
              cases hA : lookupA rnxdata t with
              | none => rw [hA] at hr; cases hr
              | some mm => exact mem_fst_of_lookupA _ _ _ hA
            have hmB2 := hmB
            unfold runSat at hmB2
            cases hre : runEpochs polyfit stepv secs f p (mA.1.map Prod.fst)
                ⟨mA.1, [], mA.2⟩ with
            | error e => rw [hre] at hmB2; cases hmB2
            | ok rB =>
              rw [hre] at hmB2
              injection hmB2 with hmB2
              have hsomeB : (lookupD rB.out t p f).isSome =
                  true :=
                runEpochs_solo_writes polyfit stepv secs f p rnxdata t r
                  (mA.1.map Prod.fst) ⟨mA.1, [], mA.2⟩ rB hstripA htkey hr hfl hre
              have hsomeMB : (lookupD mB.1 t p f).isSome = true := by
                rw [← hmB2]
                exact hsomeB
              have hsomeMS : (lookupD mS.1 t p f).isSome = true :=
                runSats_pres polyfit stepv secs
                  (fun s => (lookupD s t p f).isSome = true)
                  (fun f' p' sa ta sb hb hsa =>
                    epochStep_isSomeD _ _ _ f' p' sa ta sb hb _ _ _ hsa)
                  f ps2 _ _ hsats3 hsomeMB
              have hsomeFin : (lookupD fin.1 t p f).isSome = true :=
                runFreqs_pres polyfit stepv secs
                  (fun s => (lookupD s t p f).isSome = true)
                  (fun f' p' sa ta sb hb hsa =>
                    epochStep_isSomeD _ _ _ f' p' sa ta sb hb _ _ _ hsa)
                  goodsats fs2 _ _ hrf2 hsomeMS
              rw [← h]
              exact hsomeFin

/-- C5 is false as stated: the single visited record of `noneStore` (flag
`none`, an arc that never completes) gets no rate field at all, yet the run
succeeds. -/
theorem claim5_counterexample :
    isOkRes (dopest fitZero noneStore [1] 1 1 1) = true ∧
    (lookupRec noneStore 0 1).isSome = true ∧
    resD (dopest fitZero noneStore [1] 1 1 1) 0 1 1 = none :=
  ⟨rfl, rfl, rfl⟩

/-! ### Witnesses -/

theorem claim1_witness :
    lookupRec arc2Store 1 1 = some (mkRec "end" 20) ∧
    ∃ out2, epochStep fitZero 1 1 1 1 ⟨arc2Store, [10], false⟩ 1 =
        Except.ok ⟨out2, [], false⟩ ∧
      ∀ i, (hi : i < (([10] : List Rat) ++ [20]).length) →
        lookupD out2 (1 - (((([10] : List Rat) ++ [20]).length - 1 - i : Nat) : Int) * 1) 1 1 =
          some (DVal.num (((([10] : List Rat) ++ [20]).get ⟨i, hi⟩ -
            polyval (fitZero ((List.range (([10] : List Rat) ++ [20]).length).map
              (fun j => (j : Rat))) (([10] : List Rat) ++ [20]) 19)
              ((i : Rat) + 1 / 100)) / (1 / 100 * 1))) :=
  ⟨rfl, claim1_arc_rate_values fitZero 1 1 1 1 ⟨arc2Store, [10], false⟩ 1
    (mkRec "end" 20) 20 rfl rfl rfl (by decide) (by decide)⟩

theorem claim2_witness :
    lookupRec arc2Store 1 1 = some (mkRec "end" 20) ∧
    ∃ out2, epochStep fitZero 1 1 1 1 ⟨arc2Store, [10], false⟩ 1 =
        Except.ok ⟨out2, [], false⟩ ∧
      (∀ k, k < (([10] : List Rat) ++ [20]).length →
        ∃ q, lookupD out2 (1 - (((([10] : List Rat) ++ [20]).length - 1 - k : Nat) : Int) * 1) 1 1 =
          some (DVal.num q)) ∧
      (∀ t2 p2 f2,
        (p2 ≠ 1 ∨ f2 ≠ 1 ∨ ∀ k : Nat, k < (([10] : List Rat) ++ [20]).length → t2 ≠ 1 - (k : Int) * 1) →
        lookupD out2 t2 p2 f2 = lookupD arc2Store t2 p2 f2) :=
  ⟨rfl, claim2_writeback_alignment fitZero 1 1 1 1 ⟨arc2Store, [10], false⟩ 1
    (mkRec "end" 20) 20 rfl rfl rfl (by decide) (by decide)⟩

theorem claim3_witness :
    lookupRec soloStore 0 1 = some (mkRec "solo" 4) ∧
    (epochStep fitZero 1 1 1 1 ⟨soloStore, [], false⟩ 0 =
      Except.ok ⟨storeSetD soloStore 0 1 1 (DVal.str "NaN"), [], false⟩ ∧
    lookupD (storeSetD soloStore 0 1 1 (DVal.str "NaN")) 0 1 1 =
      some (DVal.str "NaN")) :=
  ⟨rfl, claim3_solo_slip_visit fitZero 1 1 1 1 ⟨soloStore, [], false⟩ 0
    (mkRec "solo" 4) rfl (Or.inl rfl)⟩

theorem claim4_witness :
    lookupA (⟨"none", [], [], []⟩ : Record).L 1 = none ∧
    dopest fitZero missStore [1] 1 1 1 = Except.error Err.retFalse :=
  ⟨rfl, claim4_missing_phase_aborts fitZero missStore [1] 1 1 1
    [] [] [] [] 1 1 (missStore, false) (missStore, false) [] [] 0
    ⟨missStore, [], false⟩ (⟨"none", [], [], []⟩ : Record)
    rfl rfl rfl rfl rfl rfl rfl (by decide) rfl⟩

theorem claim5_witness :
    dopest fitZero soloStore [1] 1 1 1 = Except.ok soloOut ∧
    (lookupD soloOut 0 1 1).isSome = true :=
  ⟨rfl, claim5_solo_slip_populated fitZero soloStore [1] 1 1 1 soloOut 1 1 0
    (mkRec "solo" 4) rfl (by decide) (by decide) rfl (Or.inl rfl)⟩

theorem claim6_witness :
    dopest fitZero arcStore [1] 1 1 1 = Except.ok arcOut ∧
    stripD arcOut = stripD arcStore :=
  ⟨rfl, (claim6_frame fitZero arcStore [1] 1 1 1 arcOut rfl).1⟩

theorem claim7_witness :
    dopest fitZero arcStore [1] 1 1 1 = Except.ok arcOut ∧
    ∃ out2, dopest fitZero arcOut [1] 1 1 1 = Except.ok out2 ∧
      ∀ t p f, lookupD out2 t p f = lookupD arcOut t p f :=
  ⟨rfl, claim7_idempotent fitZero arcStore [1] 1 1 1 arcOut rfl⟩

theorem claim8_witness :
    lookupRec endStore 0 1 = some (mkRec "end" 7) ∧
    epochStep fitZero 1 1 1 1 ⟨endStore, [], false⟩ 0 =
      Except.ok ⟨storeSetD endStore 0 1 1 (DVal.num
        ((7 - polyval (fitZero [(0 : Rat)] [7] 19) (1 / 100)) / (1 / 100 * 1))),
        [], false⟩ :=
  ⟨rfl, claim8_degenerate_arc fitZero 1 1 1 1 ⟨endStore, [], false⟩ 0
    (mkRec "end" 7) 7 rfl rfl rfl rfl⟩

theorem claim9_witness :
    lookupRec gapStore 5 1 = some (mkRec "end" 20) ∧
    epochStep fitZero 1 1 1 1 ⟨gapStore, [10], false⟩ 5 =
      Except.error Err.keyError :=
  ⟨rfl, (claim9_writeback_guard fitZero 1 1 1 1 ⟨gapStore, [10], false⟩ 5
    (mkRec "end" 20) 20 rfl rfl rfl).mpr (by decide)⟩

theorem claim10_witness :
    dopest fitZero arcStore [1] 1 1 1 = Except.ok arcOut ∧
    ((∀ t p f v, lookupD arcOut t p f = some v →
      v = DVal.str "NaN" ∨ ∃ q, v = DVal.num q) ∧
    (∀ q, DVal.str "NaN" ≠ DVal.num q)) :=
  ⟨rfl, claim10_sentinel_type fitZero arcStore [1] 1 1 1 arcOut rfl
    (fun t p f v hv => by
      rw [lookupD_of_all_empty arcStore (by decide) t p f] at hv
      cases hv)⟩

end LeoGPS
